import Mathlib

/-!
# cdrom-daemon: `src/blktap.c`

A shallow embedding of the media-swap code of the CD-ROM daemon, and the
properties of it that the specification states.

Conventions of the embedding.

* A C string is a Lean `String`, one character per byte.
* `int` is 32 bits and `long` is 64 bits; an `int` variable that receives a
  `long` keeps the low 32 bits (`toInt32`).
* The configuration store is a list of nodes `(path, value)`, a path being
  the list of its segments.  A store lists every node explicitly.
* The backing-instance control service is seen through the list that
  `tap_ctl_list` returns; the calls made to it are recorded in the trace.
* A read through a pointer that does not point into the object (a NULL
  pointer, an offset past the terminating NUL) is undefined behaviour; the
  embedding stops there with `Res.fault`.  A loop that can never exit is
  `Res.hang`.
-/

namespace CdromDaemon

/-! ## C library -/

/-- The value an `int` holds after a wider integer is stored in it. -/
def toInt32 (x : Int) : Int := (x + 2147483648) % 4294967296 - 2147483648

/-- Largest `long`. -/
def LONG_MAX : Int := 9223372036854775807

/-- Smallest `long`. -/
def LONG_MIN : Int := -9223372036854775808

/-- The white space that `strtol` skips. -/
def isspace (c : Char) : Bool :=
  c.toNat = 32 || (9 ≤ c.toNat && c.toNat ≤ 13)

/-- Decimal digit test. -/
def isdigit (c : Char) : Bool := 48 ≤ c.toNat && c.toNat ≤ 57

/-- The digits `strtol` consumes, accumulated in base 10. -/
def strtolDigits : List Char → Nat → Nat
  | [], acc => acc
  | c :: cs, acc => if isdigit c then strtolDigits cs (acc * 10 + (c.toNat - 48)) else acc

/-- What `strtol(s, NULL, 10)` returns on the characters `s`: white space
skipped, an optional sign, the digits, the value clamped to `long`. -/
def strtolChars (s : List Char) : Int :=
  match s.dropWhile isspace with
  | [] => 0
  | c :: r =>
    if c = '-' then max LONG_MIN (-(strtolDigits r 0 : Int))
    else if c = '+' then min LONG_MAX (strtolDigits r 0 : Int)
    else min LONG_MAX (strtolDigits (c :: r) 0 : Int)

/-- The call `strtol(s, NULL, 10)`. -/
def strtol (s : String) : Int := strtolChars s.data

/-- The call `strtol(s + off, NULL, 10)`: defined when `s + off` still points
into the string (its terminating NUL included), `none` when it points past
it. -/
def strtolAt (s : String) (off : Nat) : Option Int :=
  if off ≤ s.data.length then some (strtolChars (s.data.drop off)) else none

/-- The text `%d` prints for an `int`. -/
def fmtD (i : Int) : String :=
  if toInt32 i < 0 then String.mk ('-' :: Nat.toDigits 10 (toInt32 i).natAbs)
  else String.mk (Nat.toDigits 10 (toInt32 i).natAbs)

/-- The text `%x` prints for an `int`: the 32-bit pattern in lower-case
hexadecimal. -/
def fmtX (i : Int) : String := String.mk (Nat.toDigits 16 (i % 4294967296).toNat)

/-- What `snprintf(buf, size, ...)` leaves in `buf` when the formatted text is
`s`: at most `size - 1` bytes of it. -/
def snprintf (size : Nat) (s : String) : String := String.mk (s.data.take (size - 1))

/-- The text a printf-style function makes of a format that is given no
argument: `%%` gives `%`, and every other use of `%` is a directive that takes
an argument that was not passed, or is no directive at all, both undefined
(`none`). -/
def formatChars : List Char → Option (List Char)
  | [] => some []
  | [c] => if c = '%' then none else some [c]
  | c :: d :: rest =>
    if c = '%' then
      if d = '%' then (formatChars rest).map (fun t => '%' :: t) else none
    else (formatChars (d :: rest)).map (fun t => c :: t)

/-- The expansion of a string used as a format without argument. -/
def cformat (fmt : String) : Option String := (formatChars fmt.data).map String.mk

/-! ## Configuration store -/

/-- A store path, as the list of its segments. -/
abbrev Path := List String

/-- The store: its nodes, each with its value. -/
abbrev Store := List (Path × String)

/-- One write of a transaction. -/
inductive Op
  | write (p : Path) (v : String)
  | rm (p : Path)
  | mkdir (p : Path) (owner reader : Int)
  deriving DecidableEq, Repr

/-- Whether the node `p` exists. -/
def xs_exists (s : Store) (p : Path) : Bool := s.any (fun e => e.1 == p)

/-- The store read: the value of node `p`, `none` (NULL) when there is no such node. -/
def xs_read (s : Store) (p : Path) : Option String :=
  (s.find? (fun e => e.1 == p)).map Prod.snd

/-- The name of `q` as a child of `p`, when it is one. -/
def childOf (p q : Path) : Option String :=
  if q.length = p.length + 1 ∧ p.isPrefixOf q then q.getLast? else none

/-- The store listing: the names of the children of node `p`, `none` (NULL) when
there is no such node. -/
def xs_directory (s : Store) (p : Path) : Option (List String) :=
  if xs_exists s p then some (s.filterMap (fun e => childOf p e.1)) else none

/-- Create node `p` with an empty value unless it exists. -/
def mkNode (s : Store) (p : Path) : Store :=
  if xs_exists s p then s else s ++ [(p, "")]

/-- Create the missing ancestors of the node `pre ++ p`, nearest the root first. -/
def mkAncestors (s : Store) (pre : Path) : Path → Store
  | [] => s
  | [_] => s
  | x :: y :: rest => mkAncestors (mkNode s (pre ++ [x])) (pre ++ [x]) (y :: rest)

/-- Set the value of node `p`, creating it when missing. -/
def setNode (s : Store) (p : Path) (v : String) : Store :=
  if xs_exists s p then s.map (fun e => if e.1 == p then (e.1, v) else e) else s ++ [(p, v)]

/-- The store write: ancestors are created as needed. -/
def xs_write (s : Store) (p : Path) (v : String) : Store :=
  setNode (mkAncestors s [] p) p v

/-- The store removal: node `p` and everything below it. -/
def xs_rm (s : Store) (p : Path) : Store := s.filter (fun e => !(p.isPrefixOf e.1))

/-- The store directory creation. -/
def xs_mkdir (s : Store) (p : Path) : Store := mkNode (mkAncestors s [] p) p

/-- Effect of one write on the store. -/
def applyOp (s : Store) : Op → Store
  | .write p v => xs_write s p v
  | .rm p => xs_rm s p
  | .mkdir p _ _ => xs_mkdir s p

/-- Effect of a batch of writes, in order. -/
def applyOps (ops : List Op) (s : Store) : Store := ops.foldl applyOp s

/-- The text of a path. -/
def pathString (p : Path) : String := String.join (p.map (fun seg => "/" ++ seg))

/-- Modelled from the spec: the macro `VBD_BACKEND_FORMAT` of `project.h`, the
backend root `/local/domain/0/backend/vbd/<guest>/<vdev>`. -/
def VBD_BACKEND_FORMAT (domid vdev : Int) : Path :=
  ["local", "domain", "0", "backend", "vbd", fmtD domid, fmtD vdev]

/-- Modelled from the spec: the macro `VBD_FRONTEND_FORMAT` of `project.h`, the
frontend root `/local/domain/<guest>/device/vbd/<vdev>`. -/
def VBD_FRONTEND_FORMAT (domid vdev : Int) : Path :=
  ["local", "domain", fmtD domid, "device", "vbd", fmtD vdev]

/-- Path of a field of the backend record. -/
def bePath (domid vdev : Int) (key : String) : Path := VBD_BACKEND_FORMAT domid vdev ++ [key]

/-- Path of a field of the frontend record. -/
def fePath (domid vdev : Int) (key : String) : Path := VBD_FRONTEND_FORMAT domid vdev ++ [key]

/-- Path of a guest's metadata field `/local/domain/<guest>/<key...>`. -/
def domPath (domid : Int) (key : List String) : Path := ["local", "domain", fmtD domid] ++ key

/-- Modelled from the spec: the helper `xenstore_be_read`, a read of a field of
the backend record. -/
def xenstore_be_read (s : Store) (domid vdev : Int) (key : String) : Option String :=
  xs_read s (bePath domid vdev key)

/-- Modelled from the spec: the helper `xenstore_fe_read`, a read of a field of
the frontend record. -/
def xenstore_fe_read (s : Store) (domid vdev : Int) (key : String) : Option String :=
  xs_read s (fePath domid vdev key)

/-- Modelled from the spec: the helper `xenstore_dom_read`, a read of a guest
metadata field. -/
def xenstore_dom_read (s : Store) (domid : Int) (key : List String) : Option String :=
  xs_read s (domPath domid key)

/-- Modelled from the spec: the helper `xenstore_be_write`, as the write it adds
to the transaction.  The helper takes a printf format and its arguments;
`value` is the text they expand to. -/
def xenstore_be_write (domid vdev : Int) (key value : String) : Op :=
  .write (bePath domid vdev key) value

/-- Modelled from the spec: the helper `xenstore_fe_write`; `value` is the text
its format and arguments expand to. -/
def xenstore_fe_write (domid vdev : Int) (key value : String) : Op :=
  .write (fePath domid vdev key) value

/-- Modelled from the spec: the helper `xenstore_be_destroy`, removal of the
backend record tree. -/
def xenstore_be_destroy (domid vdev : Int) : Op := .rm (VBD_BACKEND_FORMAT domid vdev)

/-- Modelled from the spec: the helper `xenstore_fe_destroy`, removal of the
frontend record tree. -/
def xenstore_fe_destroy (domid vdev : Int) : Op := .rm (VBD_FRONTEND_FORMAT domid vdev)

/-- Modelled from the spec: the helper `xenstore_mkdir_with_perms`. -/
def xenstore_mkdir_with_perms (owner reader : Int) (p : Path) : Op := .mkdir p owner reader

/-! ## Device locator and sharing detector -/

/-- The loop of `cdrom_vdev_of_domid` over the directory entries. -/
def cdrom_vdev_scan (s : Store) (domid : Int) : List String → Int
  | [] => -1
  | dev :: rest =>
    let vdev := toInt32 (strtol dev)
    match xenstore_be_read s domid vdev "device-type" with
    | none => cdrom_vdev_scan s domid rest
    | some type => if type = "cdrom" then vdev else cdrom_vdev_scan s domid rest

/-- Source `cdrom_vdev_of_domid`: the first CD-ROM virtual device of the guest,
`-1` when there is none. -/
def cdrom_vdev_of_domid (s : Store) (domid : Int) : Int :=
  match xs_directory s ["local", "domain", "0", "backend", "vbd", fmtD domid] with
  | none => -1
  | some devs => cdrom_vdev_scan s domid devs

/-- Source `cdrom_tap_minor_of_vdev`: the minor read at offset 24 of `params`.
The outer `none` is the read past the end of a `params` shorter than 24 bytes. -/
def cdrom_tap_minor_of_vdev (s : Store) (domid vdev : Int) : Option Int :=
  if vdev < 0 then some (-1)
  else
    match xenstore_be_read s domid vdev "params" with
    | none => some (-1)
    | some tmp => (strtolAt tmp 24).map toInt32

/-- The loop of `cdrom_tapdev_is_shared` over the guests of the backend
directory. -/
def cdrom_tapdev_is_shared_scan (s : Store) (tap_minor domid : Int) : List String → Option Bool
  | [] => some false
  | x :: rest =>
    let d := toInt32 (strtol x)
    if d = domid then cdrom_tapdev_is_shared_scan s tap_minor domid rest
    else
      let skip :=
        match xenstore_dom_read s d ["target"] with
        | some target => decide (strtol target = domid)
        | none => false
      if skip then cdrom_tapdev_is_shared_scan s tap_minor domid rest
      else
        match cdrom_tap_minor_of_vdev s d (cdrom_vdev_of_domid s d) with
        | none => none
        | some tm =>
          if tm = tap_minor then some true
          else cdrom_tapdev_is_shared_scan s tap_minor domid rest

/-- Source `cdrom_tapdev_is_shared`; `none` when a minor is read past the end of
a string on the way. -/
def cdrom_tapdev_is_shared (s : Store) (tap_minor domid : Int) : Option Bool :=
  match xs_directory s ["local", "domain", "0", "backend", "vbd"] with
  | none => some false
  | some domids => cdrom_tapdev_is_shared_scan s tap_minor domid domids

/-! ## Backing instances -/

/-- An entry of the list `tap_ctl_list` returns. -/
structure Tap where
  id : Int
  minor : Int
  path : Option String
  deriving DecidableEq, Repr

/-- The loop of `find_tap_with_path`: it stops at the end of the list and at
the first entry without a path. -/
def find_tap_scan (path : String) : List Tap → Option Tap
  | [] => none
  | t :: rest =>
    match t.path with
    | none => none
    | some p => if p = path then some t else find_tap_scan path rest

/-- Source `find_tap_with_path`. -/
def find_tap_with_path (taps : List Tap) (path : String) : Int :=
  match find_tap_scan path taps with
  | some tap => tap.minor
  | none => -1

/-- Source `cdrom_tap_destroy` and `cdrom_tap_close_and_load`, the search they
share: the first listed instance with the given minor. -/
def tap_of_minor (tap_minor : Int) : List Tap → Option Tap
  | [] => none
  | t :: rest => if t.minor = tap_minor then some t else tap_of_minor tap_minor rest

/-! ## The world the daemon runs in -/

/-- How `xs_transaction_end` ends: the batch is committed, it met a concurrent
writer (`errno == EAGAIN`), or it failed otherwise. -/
inductive TxnEnd
  | committed
  | conflict
  | failed
  deriving DecidableEq, Repr

/-- The flags passed to the control service. -/
inductive TapFlag
  | TAPDISK_MESSAGE_FLAG_RDONLY
  deriving DecidableEq, Repr

/-- What the daemon does to its collaborators, in order. -/
inductive Event
  | txn (ops : List Op) (res : TxnEnd)
  | watch (p : Path)
  | unwatch (p : Path)
  | select
  | read_be_state (v : Option String)
  | read_fe_state (v : Option String)
  | tap_ctl_list
  | tap_ctl_close (id minor force : Int)
  | tap_ctl_open_flags (id minor : Int) (params : String) (flags : TapFlag)
  | tap_ctl_destroy (id minor : Int)
  | tap_ctl_create_flags (params : String) (flags : TapFlag)
  deriving DecidableEq, Repr

/-- The daemon's surroundings.  `txnEnds` is how the coming calls of
`xs_transaction_end` end, every later one committing; `peers` is what the other
users of the store write before each coming return of `select`, nothing being
written after the last; `created` is what `tap_ctl_create_flags` returns and
leaves in `new_params`. -/
structure World where
  store : Store
  taps : List Tap
  txnEnds : List TxnEnd
  peers : List (List Op)
  created : Int × Option String
  trace : List Event
  deriving DecidableEq, Repr

/-- How a call ends: it returns, it reaches undefined behaviour, or it never
returns. -/
inductive Res (α : Type)
  | ret (a : α) (w : World)
  | fault (w : World)
  | hang (w : World)
  deriving DecidableEq, Repr

/-- The world a call ends in. -/
def Res.world {α : Type} : Res α → World
  | .ret _ w => w
  | .fault w => w
  | .hang w => w

/-- Whether the call reaches undefined behaviour. -/
def Res.faults {α : Type} : Res α → Bool
  | .fault _ => true
  | _ => false

/-- The returned value, if the call returns. -/
def Res.value {α : Type} : Res α → Option α
  | .ret a _ => some a
  | .fault _ => none
  | .hang _ => none

/-- Continue after a call that returned. -/
def Res.andThen {α β : Type} (r : Res α) (k : α → World → Res β) : Res β :=
  match r with
  | .ret a w => k a w
  | .fault w => .fault w
  | .hang w => .hang w

/-- Record an event. -/
def World.emit (w : World) (e : Event) : World := { w with trace := w.trace ++ [e] }

/-- The retry loop around a transaction, on the coming transaction ends:
`while (1) { start; ops; if (!end && errno == EAGAIN) continue; break; }`. -/
def transactLoop (ops : List Op) (w : World) : List TxnEnd → World
  | [] =>
    { w with store := applyOps ops w.store, txnEnds := [],
             trace := w.trace ++ [.txn ops .committed] }
  | .committed :: rest =>
    { w with store := applyOps ops w.store, txnEnds := rest,
             trace := w.trace ++ [.txn ops .committed] }
  | .failed :: rest =>
    { w with txnEnds := rest, trace := w.trace ++ [.txn ops .failed] }
  | .conflict :: rest =>
    transactLoop ops { w with trace := w.trace ++ [.txn ops .conflict] } rest

/-- A batch of writes in a transaction, retried while it conflicts. -/
def transaction (ops : List Op) (w : World) : World := transactLoop ops w w.txnEnds

/-! ## Disconnect waiter -/

/-- What one pass of the loop of `cdrom_wait_for_disconnect` finds. -/
inductive Poll
  | closed
  | again
  | null
  deriving DecidableEq, Repr

/-- The two reads of one pass: the backend state, then the frontend state if the
backend is Closed.  `strcmp` on a NULL is undefined. -/
def pollStates (domid vdev : Int) (w : World) : Poll × World :=
  let be := xenstore_be_read w.store domid vdev "state"
  let w1 := w.emit (.read_be_state be)
  match be with
  | none => (.null, w1)
  | some b =>
    if b ≠ "6" then (.again, w1)
    else
      let fe := xenstore_fe_read w.store domid vdev "state"
      let w2 := w1.emit (.read_fe_state fe)
      match fe with
      | none => (.null, w2)
      | some f => if f ≠ "6" then (.again, w2) else (.closed, w2)

/-- The loop of `cdrom_wait_for_disconnect`, on the coming writes of the peers.
Once nothing is written any more, a pass that does not find both ends Closed
repeats forever. -/
def waitLoop (domid vdev : Int) (w : World) : List (List Op) → Res Unit
  | [] =>
    match pollStates domid vdev ({ w with peers := [] }.emit .select) with
    | (.closed, w1) => .ret () w1
    | (.again, w1) => .hang w1
    | (.null, w1) => .fault w1
  | ops :: rest =>
    match pollStates domid vdev
        ({ w with store := applyOps ops w.store, peers := rest }.emit .select) with
    | (.closed, w1) => .ret () w1
    | (.again, w1) => waitLoop domid vdev w1 rest
    | (.null, w1) => .fault w1

/-- Source `cdrom_wait_for_disconnect`. -/
def cdrom_wait_for_disconnect (domid vdev : Int) (w : World) : Res Unit :=
  let w1 := (w.emit (.watch (bePath domid vdev "state"))).emit (.watch (fePath domid vdev "state"))
  (waitLoop domid vdev w1 w1.peers).andThen fun _ w2 =>
    .ret () ((w2.emit (.unwatch (bePath domid vdev "state"))).emit
      (.unwatch (fePath domid vdev "state")))

/-! ## Device recreation engine -/

/-- The close request of `recreate_single`. -/
def closeOps (domid vdev : Int) : List Op :=
  [xenstore_be_write domid vdev "online" "0",
   xenstore_be_write domid vdev "state" "5"]

/-- The removal of both record trees in `recreate_single`. -/
def destroyOps (domid vdev : Int) : List Op :=
  [xenstore_be_destroy domid vdev,
   xenstore_fe_destroy domid vdev]

/-- The creation batch of `recreate_single`, from the texts that the four
formats of the caller expand to. -/
def createBatch (domid vdev : Int) (tapdisk_params type physical params : String) : List Op :=
  [xenstore_mkdir_with_perms 0 domid (VBD_BACKEND_FORMAT domid vdev),
   xenstore_be_write domid vdev "params" params,
   xenstore_be_write domid vdev "type" type,
   xenstore_be_write domid vdev "physical-device" physical,
   xenstore_be_write domid vdev "frontend" (pathString (VBD_FRONTEND_FORMAT domid vdev)),
   xenstore_be_write domid vdev "device-type" "cdrom",
   xenstore_be_write domid vdev "online" "1",
   xenstore_be_write domid vdev "state" "1",
   xenstore_be_write domid vdev "removable" "1",
   xenstore_be_write domid vdev "mode" "r",
   xenstore_be_write domid vdev "frontend-id" (fmtD domid),
   xenstore_be_write domid vdev "dev" "hdc",
   xenstore_be_write domid vdev "tapdisk-params" tapdisk_params,
   xenstore_mkdir_with_perms domid 0 (VBD_FRONTEND_FORMAT domid vdev),
   xenstore_fe_write domid vdev "state" "1",
   xenstore_fe_write domid vdev "backend-id" "0",
   xenstore_fe_write domid vdev "backend" (pathString (VBD_BACKEND_FORMAT domid vdev)),
   xenstore_fe_write domid vdev "virtual-device" (fmtD vdev),
   xenstore_fe_write domid vdev "device-type" "cdrom",
   xenstore_fe_write domid vdev "backend-uuid" "00000000-0000-0000-0000-000000000000"]

/-- The creation of both record trees in `recreate_single`.  The strings
`params`, `type`, `physical` and `tapdisk_params` go to `xenstore_be_write` as
formats without argument: the batch writes their expansions, and there is no
batch (`none`) when one of them is undefined. -/
def createOps (domid vdev : Int) (tapdisk_params type physical params : String) :
    Option (List Op) :=
  match cformat params, cformat type, cformat physical, cformat tapdisk_params with
  | some p, some t, some ph, some tp => some (createBatch domid vdev tp t ph p)
  | _, _, _, _ => none

/-- Whether the backend state reads Connected: `strtol(tmp, NULL, 10) == 4`. -/
def is_connected (s : Store) (domid vdev : Int) : Bool :=
  match xenstore_be_read s domid vdev "state" with
  | some tmp => decide (strtol tmp = 4)
  | none => false

/-- Source `recreate_single`. -/
def recreate_single (domid vdev : Int) (tapdisk_params type physical params : String)
    (w : World) : Res Unit :=
  let disconnected : Res Unit :=
    if is_connected w.store domid vdev then
      cdrom_wait_for_disconnect domid vdev (transaction (closeOps domid vdev) w)
    else .ret () w
  disconnected.andThen fun _ w1 =>
    let w2 := transaction (destroyOps domid vdev) w1
    match createOps domid vdev tapdisk_params type physical params with
    | none => .fault w2
    | some ops => .ret () (transaction ops w2)

/-- The helper of a guest, read from `image/device-model-domid`; `-1` when there
is none. -/
def stubdom_of (s : Store) (domid : Int) : Int :=
  match xenstore_dom_read s domid ["image", "device-model-domid"] with
  | some tmp => toInt32 (strtol tmp)
  | none => -1

/-- Source `recreate`.  The parameters keep the source's names and order, and so
does the call of `recreate_single`. -/
def recreate (domid vdev : Int) (params type physical tapdisk_params : String)
    (w : World) : Res Unit :=
  let stubdom := stubdom_of w.store domid
  (recreate_single domid vdev params type physical tapdisk_params w).andThen fun _ w1 =>
    if stubdom ≠ -1 then recreate_single stubdom vdev params type physical tapdisk_params w1
    else .ret () w1

/-! ## In-place change -/

/-- The batch of `cdrom_change_single`, from the texts that the formats of the
caller expand to; `new_physical` is `none` for NULL. -/
def changeBatch (domid vdev : Int) (params type : String) (new_physical : Option String)
    (tapdisk_params : String) : List Op :=
  [xenstore_be_write domid vdev "params" params,
   xenstore_be_write domid vdev "type" type] ++
  (match new_physical with
   | some phys => [xenstore_be_write domid vdev "physical-device" phys]
   | none => []) ++
  [xenstore_be_write domid vdev "tapdisk-params" tapdisk_params]

/-- The writes of `cdrom_change_single`.  The strings `params`, `type`,
`new_physical` (when not NULL) and `tapdisk_params` go to `xenstore_be_write` as
formats without argument: the batch writes their expansions, and there is no
batch (`none`) when one of them is undefined. -/
def changeOps (domid vdev : Int) (params type : String) (new_physical : Option String)
    (tapdisk_params : String) : Option (List Op) :=
  match cformat params, cformat type,
      (match new_physical with
       | some phys => (cformat phys).map some
       | none => some none),
      cformat tapdisk_params with
  | some p, some t, some ph, some tp => some (changeBatch domid vdev p t ph tp)
  | _, _, _, _ => none

/-- Source `cdrom_change_single`. -/
def cdrom_change_single (domid vdev : Int) (params type : String)
    (new_physical : Option String) (tapdisk_params : String) (w : World) : Res Unit :=
  match changeOps domid vdev params type new_physical tapdisk_params with
  | none => .fault w
  | some ops => .ret () (transaction ops w)

/-- Source `cdrom_change`. -/
def cdrom_change (domid vdev : Int) (params type : String) (new_physical : Option String)
    (tapdisk_params : String) (w : World) : Res Unit :=
  let stubdom := stubdom_of w.store domid
  (cdrom_change_single domid vdev params type new_physical tapdisk_params w).andThen
    fun _ w1 =>
      if stubdom ≠ -1 then
        cdrom_change_single stubdom vdev params type new_physical tapdisk_params w1
      else .ret () w1

/-! ## Backing-instance lifecycle client -/

/-- Source `cdrom_tap_close_and_load`. -/
def cdrom_tap_close_and_load (tap_minor : Int) (params : String) (close : Bool)
    (w : World) : Bool × World :=
  let w1 := w.emit .tap_ctl_list
  match tap_of_minor tap_minor w.taps with
  | none => (false, w1)
  | some tap =>
    let w2 := if close then w1.emit (.tap_ctl_close tap.id tap_minor 0) else w1
    (true, w2.emit (.tap_ctl_open_flags tap.id tap_minor params .TAPDISK_MESSAGE_FLAG_RDONLY))

/-- Source `cdrom_tap_destroy`. -/
def cdrom_tap_destroy (tap_minor : Int) (w : World) : Bool × World :=
  let w1 := w.emit .tap_ctl_list
  match tap_of_minor tap_minor w.taps with
  | none => (false, w1)
  | some tap => (true, w1.emit (.tap_ctl_destroy tap.id tap_minor))

/-! ## Media swap orchestrator -/

/-- Branch 1 of `blktap_change_iso`: an instance already serves the image. -/
def branch_existing (tapdisk_params : String) (domid vdev tap_minor existing : Int)
    (shared : Bool) (w : World) : Res Bool :=
  let w1 := if !shared then (cdrom_tap_destroy tap_minor w).2 else w
  let params := snprintf 256 ("/dev/xen/blktap-2/tapdev" ++ fmtD existing)
  let phys := snprintf 16 ("fe:" ++ fmtD existing)
  (recreate domid vdev tapdisk_params "phy" phys params w1).andThen fun _ w2 => .ret true w2

/-- Branch 2 of `blktap_change_iso`: the guest alone uses its instance. -/
def branch_reuse (tapdisk_params : String) (domid vdev tap_minor : Int) (w : World) : Res Bool :=
  let params := snprintf 256 ("/dev/xen/blktap-2/tapdev" ++ fmtD tap_minor)
  match cdrom_tap_close_and_load tap_minor tapdisk_params true w with
  | (true, w1) =>
    (cdrom_change domid vdev params "phy" none tapdisk_params w1).andThen
      fun _ w2 => .ret true w2
  | (false, w1) => .ret true w1

/-- Branch 3 of `blktap_change_iso`: the instance is shared, a new one is
created.  `new_params` stays NULL when the service leaves it so. -/
def branch_create (tapdisk_params : String) (domid vdev : Int) (w : World) : Res Bool :=
  let w1 := w.emit (.tap_ctl_create_flags tapdisk_params .TAPDISK_MESSAGE_FLAG_RDONLY)
  match w.created.2 with
  | none => .fault w1
  | some new_params =>
    match strtolAt new_params 24 with
    | none => .fault w1
    | some v =>
      let tap_minor := toInt32 v
      let phys := snprintf 16 ("fe:" ++ fmtX tap_minor)
      (recreate domid vdev tapdisk_params "phy" phys new_params w1).andThen
        fun _ w2 => .ret true w2

/-- The insertion half of `blktap_change_iso`, after the eject. -/
def insert_iso (path : String) (domid vdev tap_minor : Int) (w : World) : Res Bool :=
  match cdrom_tapdev_is_shared w.store tap_minor domid with
  | none => .fault w
  | some shared =>
    let tapdisk_params := snprintf 256 ("aio:" ++ path)
    let w1 := w.emit .tap_ctl_list
    let existing := find_tap_with_path w.taps path
    if existing ≥ 0 then branch_existing tapdisk_params domid vdev tap_minor existing shared w1
    else if !shared then branch_reuse tapdisk_params domid vdev tap_minor w1
    else branch_create tapdisk_params domid vdev w1

/-- Source `blktap_change_iso`. -/
def blktap_change_iso (path : String) (domid : Int) (w : World) : Res Bool :=
  let vdev := cdrom_vdev_of_domid w.store domid
  if vdev = -1 then .ret false w
  else
    match cdrom_tap_minor_of_vdev w.store domid vdev with
    | none => .fault w
    | some tap_minor =>
      if tap_minor < 0 then .ret false w
      else
        (cdrom_change domid vdev "" "" none "" w).andThen fun _ w1 =>
          if path = "" then .ret true w1
          else insert_iso path domid vdev tap_minor w1

/-! ## Example data -/

/-- The backend directory node. -/
def vbdRoot : Store := [(["local", "domain", "0", "backend", "vbd"], "")]

/-- The nodes of a guest's CD-ROM vbd: the backend record with its
`device-type`, `params` and `state`, and the frontend `state`. -/
def cdromVbd (domid vdev : Int) (params state : String) : Store :=
  [(["local", "domain", "0", "backend", "vbd", fmtD domid], ""),
   (VBD_BACKEND_FORMAT domid vdev, ""),
   (bePath domid vdev "device-type", "cdrom"),
   (bePath domid vdev "params", params),
   (bePath domid vdev "state", state),
   (fePath domid vdev "state", state)]

/-- The writes of a peer that shows both ends of a vbd Closed. -/
def peerCloses (domid vdev : Int) : List Op :=
  [.write (bePath domid vdev "state") "6", .write (fePath domid vdev "state") "6"]

/-- Guest 1 alone, its CD-ROM vbd 5632 connected and bound to minor 3. -/
def storeAlone : Store := vbdRoot ++ cdromVbd 1 5632 "/dev/xen/blktap-2/tapdev3" "4"

/-- Guests 1 and 7, both with a CD-ROM vbd bound to minor 3. -/
def storeShared : Store :=
  vbdRoot ++ cdromVbd 1 5632 "/dev/xen/blktap-2/tapdev3" "4" ++
    cdromVbd 7 5632 "/dev/xen/blktap-2/tapdev3" "4"

/-- Guest 1 with helper 2 recorded in `image/device-model-domid`, helper 2
without a `target` record, both with a CD-ROM vbd bound to minor 3. -/
def storeHelperNoTarget : Store :=
  vbdRoot ++ cdromVbd 1 5632 "/dev/xen/blktap-2/tapdev3" "4" ++
    cdromVbd 2 5632 "/dev/xen/blktap-2/tapdev3" "4" ++
    [(["local", "domain", "1", "image", "device-model-domid"], "2")]

/-- A world around a store: the listed instances, the peers' coming writes and
what a create would return; every transaction commits. -/
def worldOf (s : Store) (taps : List Tap) (peers : List (List Op))
    (created : Int × Option String) : World :=
  { store := s, taps := taps, txnEnds := [], peers := peers, created := created, trace := [] }

/-! ## Reading a trace -/

/-- Whether an event is a call to the backing-instance control service. -/
def Event.isTapCall : Event → Bool
  | .tap_ctl_list => true
  | .tap_ctl_close _ _ _ => true
  | .tap_ctl_open_flags _ _ _ _ => true
  | .tap_ctl_destroy _ _ => true
  | .tap_ctl_create_flags _ _ => true
  | _ => false

/-- The calls to the control service in a trace, in order. -/
def tapCalls (tr : List Event) : List Event := tr.filter Event.isTapCall

/-- Whether a write removes a record tree. -/
def Op.removes : Op → Bool
  | .rm _ => true
  | _ => false

/-- Whether a write creates a record tree. -/
def Op.creates : Op → Bool
  | .mkdir _ _ _ => true
  | _ => false

/-- Whether an event is a transaction that destroys a record tree. -/
def Event.destroys : Event → Bool
  | .txn ops _ => ops.any Op.removes
  | _ => false

/-- Whether an event is a transaction that destroys or creates a record tree. -/
def Event.restructures : Event → Bool
  | .txn ops _ => ops.any (fun op => op.removes || op.creates)
  | _ => false

/-- The two reads of a pass of the disconnect wait that finds both ends Closed. -/
def closedPoll : List Event := [.read_be_state (some "6"), .read_fe_state (some "6")]

/-! ## Peers -/

/-- A batch of peer writes after which both ends of the vbd read Closed, whatever
the store held. -/
def ShowsClosed (domid vdev : Int) (ops : List Op) : Prop :=
  ∀ s : Store, xenstore_be_read (applyOps ops s) domid vdev "state" = some "6" ∧
    xenstore_fe_read (applyOps ops s) domid vdev "state" = some "6"

/-- The events of `k` passes of the disconnect wait that each read the backend
state as `b`, not Closed. -/
def idlePolls (b : String) : Nat → List Event
  | 0 => []
  | k + 1 => .select :: .read_be_state (some b) :: idlePolls b k

/-- Guest 1 with helper 2: as `storeHelperNoTarget`, and the helper names the
guest in its `target` record. -/
def storeHelper : Store := storeHelperNoTarget ++ [(["local", "domain", "2", "target"], "1")]

/-! # Properties -/

set_option maxRecDepth 1000000

theorem xs_read_nil (q : Path) : xs_read [] q = none := rfl

theorem xs_read_cons (e : Path × String) (s : Store) (q : Path) :
    xs_read (e :: s) q = if e.1 = q then some e.2 else xs_read s q := by
  unfold xs_read
  by_cases h : e.1 = q <;> simp [List.find?_cons, h]

theorem xs_read_append (s t : Store) (q : Path) :
    xs_read (s ++ t) q = (xs_read s q).orElse (fun _ => xs_read t q) := by
  induction s with
  | nil => simp [xs_read_nil]
  | cons e s ih =>
    rw [List.cons_append, xs_read_cons, xs_read_cons, ih]
    by_cases h : e.1 = q <;> simp [h]

theorem xs_exists_eq (s : Store) (p : Path) : xs_exists s p = (xs_read s p).isSome := by
  induction s with
  | nil => rfl
  | cons e s ih =>
    rw [xs_read_cons]
    unfold xs_exists at ih ⊢
    rw [List.any_cons, ih]
    by_cases h : e.1 = p <;> simp [h]

theorem xs_read_mkNode (s : Store) (p q : Path) (h : q ≠ p) :
    xs_read (mkNode s p) q = xs_read s q := by
  unfold mkNode
  split
  · rfl
  · rw [xs_read_append, xs_read_cons, xs_read_nil]
    simp [Ne.symm h]

theorem xs_read_mkAncestors (p : Path) : ∀ (s : Store) (pre q : Path),
    (q <+: pre ++ p → q = pre ++ p) → xs_read (mkAncestors s pre p) q = xs_read s q := by
  induction p with
  | nil => intro s pre q _; rfl
  | cons x r ih =>
    intro s pre q h
    cases r with
    | nil => rfl
    | cons y rest =>
      unfold mkAncestors
      have hne : q ≠ pre ++ [x] := by
        intro hq
        have h1 : q <+: pre ++ x :: y :: rest := by
          rw [hq]; exact ⟨y :: rest, by simp⟩
        have h2 := h h1
        rw [hq] at h2
        have := congrArg List.length h2
        simp at this
      rw [ih (mkNode s (pre ++ [x])) (pre ++ [x]) q (by simpa using h)]
      exact xs_read_mkNode s _ q hne

theorem xs_read_map_set (s : Store) (p q : Path) (v : String) :
    xs_read (s.map (fun e => if e.1 == p then (e.1, v) else e)) q
      = if q = p then (xs_read s q).map (fun _ => v) else xs_read s q := by
  induction s with
  | nil => simp [xs_read_nil]
  | cons e s ih =>
    rw [List.map_cons, xs_read_cons, xs_read_cons, ih]
    by_cases h1 : e.1 = p
    · by_cases h2 : q = p
      · simp [h1, h2]
      · have h3 : ¬ p = q := fun h => h2 h.symm
        simp [h1, h2, h3]
    · by_cases h2 : q = p
      · have h3 : ¬ e.1 = q := fun h => h1 (h.trans h2)
        simp [h1, h2, h3]
      · simp [h1, h2]

theorem xs_read_setNode (s : Store) (p q : Path) (v : String) :
    xs_read (setNode s p v) q = if q = p then some v else xs_read s q := by
  unfold setNode
  split
  · rename_i hex
    rw [xs_exists_eq] at hex
    rw [xs_read_map_set]
    by_cases h : q = p
    · subst h
      obtain ⟨x, hx⟩ := Option.isSome_iff_exists.mp hex
      simp [hx]
    · simp [h]
  · rename_i hex
    rw [xs_exists_eq] at hex
    rw [xs_read_append, xs_read_cons, xs_read_nil]
    by_cases h : q = p
    · subst h; simp at hex; simp [hex]
    · simp [h, Ne.symm h]

theorem xs_read_write (s : Store) (p q : Path) (v : String) (h : q <+: p → q = p) :
    xs_read (xs_write s p v) q = if q = p then some v else xs_read s q := by
  unfold xs_write
  rw [xs_read_setNode, xs_read_mkAncestors p s [] q (by simpa using h)]

theorem is_shared_scan_false (s : Store) (m g : Int) (domids : List String)
    (h : ∀ x ∈ domids, toInt32 (strtol x) = g
      ∨ (∃ t, xenstore_dom_read s (toInt32 (strtol x)) ["target"] = some t ∧ strtol t = g)
      ∨ (∃ tm, cdrom_tap_minor_of_vdev s (toInt32 (strtol x))
            (cdrom_vdev_of_domid s (toInt32 (strtol x))) = some tm ∧ tm ≠ m)) :
    cdrom_tapdev_is_shared_scan s m g domids = some false := by
  induction domids with
  | nil => rfl
  | cons x rest ih =>
    have ih' := ih (fun y hy => h y (List.mem_cons_of_mem _ hy))
    rcases h x (List.mem_cons_self _ _) with h1 | ⟨t, ht, htg⟩ | ⟨tm, htm, hne⟩
    · simp [cdrom_tapdev_is_shared_scan, h1, ih']
    · simp [cdrom_tapdev_is_shared_scan, ht, htg, ih']
    · unfold cdrom_tapdev_is_shared_scan
      simp only [htm]
      split
      · exact ih'
      · split
        · exact ih'
        · simp [hne, ih']



/-! ### Transactions -/

theorem transactLoop_spec (ops : List Op) : ∀ (l : List TxnEnd) (w : World),
    ∃ (n : Nat) (r : TxnEnd), r ≠ .conflict ∧ (r = .failed → .failed ∈ l) ∧
      (n ≠ 0 → .conflict ∈ l) ∧
      transactLoop ops w l =
        { w with store := if r = .failed then w.store else applyOps ops w.store,
                 txnEnds := l.drop (n + 1),
                 trace := w.trace ++ (List.replicate n (.txn ops .conflict) ++ [.txn ops r]) } := by
  intro l
  induction l with
  | nil =>
    intro w
    exact ⟨0, .committed, by decide, by simp, by simp, by simp [transactLoop]⟩
  | cons t rest ih =>
    intro w
    cases t with
    | committed => exact ⟨0, .committed, by decide, by simp, by simp, by simp [transactLoop]⟩
    | failed => exact ⟨0, .failed, by decide, by simp, by simp, by simp [transactLoop]⟩
    | conflict =>
      obtain ⟨n, r, hr, hf, hc, heq⟩ := ih { w with trace := w.trace ++ [.txn ops .conflict] }
      refine ⟨n + 1, r, hr, fun h => List.mem_cons_of_mem _ (hf h), fun _ => by simp, ?_⟩
      rw [transactLoop, heq]
      simp [List.replicate_succ]

theorem transaction_spec (ops : List Op) (w : World) :
    ∃ (n : Nat) (r : TxnEnd), r ≠ .conflict ∧ (r = .failed → .failed ∈ w.txnEnds) ∧
      (n ≠ 0 → .conflict ∈ w.txnEnds) ∧
      transaction ops w =
        { w with store := if r = .failed then w.store else applyOps ops w.store,
                 txnEnds := w.txnEnds.drop (n + 1),
                 trace := w.trace ++ (List.replicate n (.txn ops .conflict) ++ [.txn ops r]) } :=
  transactLoop_spec ops w.txnEnds w

theorem transaction_taps (ops : List Op) (w : World) : (transaction ops w).taps = w.taps := by
  obtain ⟨n, r, -, -, -, h⟩ := transaction_spec ops w
  rw [h]

theorem transaction_peers (ops : List Op) (w : World) : (transaction ops w).peers = w.peers := by
  obtain ⟨n, r, -, -, -, h⟩ := transaction_spec ops w
  rw [h]

theorem transaction_created (ops : List Op) (w : World) :
    (transaction ops w).created = w.created := by
  obtain ⟨n, r, -, -, -, h⟩ := transaction_spec ops w
  rw [h]

theorem transaction_noFail (ops : List Op) (w : World) (h : TxnEnd.failed ∉ w.txnEnds) :
    TxnEnd.failed ∉ (transaction ops w).txnEnds := by
  obtain ⟨n, r, -, -, -, heq⟩ := transaction_spec ops w
  rw [heq]
  exact fun hm => h (List.mem_of_mem_drop hm)

theorem transaction_noConflict (ops : List Op) (w : World) (h : TxnEnd.conflict ∉ w.txnEnds) :
    TxnEnd.conflict ∉ (transaction ops w).txnEnds := by
  obtain ⟨n, r, -, -, -, heq⟩ := transaction_spec ops w
  rw [heq]
  exact fun hm => h (List.mem_of_mem_drop hm)

theorem transaction_store (ops : List Op) (w : World) (h : TxnEnd.failed ∉ w.txnEnds) :
    (transaction ops w).store = applyOps ops w.store := by
  obtain ⟨n, r, -, hf, -, heq⟩ := transaction_spec ops w
  rw [heq]
  have : r ≠ .failed := fun hr => h (hf hr)
  simp [this]

theorem transaction_tapCalls (ops : List Op) (w : World) :
    tapCalls (transaction ops w).trace = tapCalls w.trace := by
  obtain ⟨n, r, -, -, -, heq⟩ := transaction_spec ops w
  rw [heq]
  simp [tapCalls, List.filter_append, Event.isTapCall, List.filter_replicate]



/-! ### Disconnect waiter -/

theorem emit_taps (w : World) (e : Event) : (w.emit e).taps = w.taps := rfl

theorem emit_peers (w : World) (e : Event) : (w.emit e).peers = w.peers := rfl

/-- One pass of the wait only reads: it adds one or two read events, and it
finds the vbd closed exactly when these are the two reads of `"6"`. -/
theorem pollStates_spec (domid vdev : Int) (w : World) :
    ∃ evs, (pollStates domid vdev w).2 = { w with trace := w.trace ++ evs } ∧
      (∀ e ∈ evs, (∃ x, e = .read_be_state x) ∨ (∃ x, e = .read_fe_state x)) ∧
      ((pollStates domid vdev w).1 = .closed → evs = closedPoll) := by
  unfold pollStates
  cases hbe : xenstore_be_read w.store domid vdev "state" with
  | none =>
    refine ⟨[.read_be_state none], by simp [World.emit], by simp, by simp⟩
  | some b =>
    by_cases hb : b = "6"
    · subst hb
      cases hfe : xenstore_fe_read w.store domid vdev "state" with
      | none =>
        refine ⟨[.read_be_state (some "6"), .read_fe_state none], ?_, ?_, ?_⟩
        · simp [World.emit, hfe]
        · simp
        · simp [World.emit, hfe]
      | some f =>
        by_cases hf : f = "6"
        · subst hf
          refine ⟨closedPoll, ?_, ?_, ?_⟩
          · simp [World.emit, hfe, closedPoll]
          · simp [closedPoll]
          · simp
        · refine ⟨[.read_be_state (some "6"), .read_fe_state (some f)], ?_, ?_, ?_⟩
          · simp [World.emit, hfe, hf]
          · simp
          · simp [World.emit, hfe, hf]
    · refine ⟨[.read_be_state (some b)], ?_, ?_, ?_⟩
      · simp [World.emit, hb]
      · simp
      · simp [World.emit, hb]

/-- The wait loop only polls: whatever its outcome, it adds `select` and read
events only, and it returns only after a pass that read both states as `"6"`. -/
theorem waitLoop_spec (domid vdev : Int) : ∀ (l : List (List Op)) (w : World),
    ∃ evs st pe, (waitLoop domid vdev w l).world
        = { w with store := st, peers := pe, trace := w.trace ++ evs } ∧
      (∀ e ∈ evs, e = .select ∨ (∃ x, e = .read_be_state x) ∨ (∃ x, e = .read_fe_state x)) ∧
      ((waitLoop domid vdev w l).value = some () → closedPoll <:+ evs) := by
  intro l
  induction l with
  | nil =>
    intro w
    obtain ⟨evs, h2, hev, hcl⟩ := pollStates_spec domid vdev ({ w with peers := [] }.emit .select)
    rcases hp : pollStates domid vdev ({ w with peers := [] }.emit .select) with ⟨p, w1⟩
    rw [hp] at h2 hcl
    simp only at h2 hcl
    refine ⟨.select :: evs, w.store, [], ?_, ?_, ?_⟩
    · unfold waitLoop
      rw [hp]
      cases p <;> simp [Res.world, h2, World.emit]
    · intro e he
      rcases List.mem_cons.mp he with h | h
      · exact Or.inl h
      · exact Or.inr (hev e h)
    · unfold waitLoop
      rw [hp]
      cases p
      · intro _
        rw [hcl rfl]
        exact List.suffix_cons _ _
      · simp [Res.value]
      · simp [Res.value]
  | cons ops rest ih =>
    intro w
    obtain ⟨evs, h2, hev, hcl⟩ := pollStates_spec domid vdev
      ({ w with store := applyOps ops w.store, peers := rest }.emit .select)
    rcases hp : pollStates domid vdev
      ({ w with store := applyOps ops w.store, peers := rest }.emit .select) with ⟨p, w1⟩
    rw [hp] at h2 hcl
    simp only at h2 hcl
    cases p with
    | closed =>
      refine ⟨.select :: evs, applyOps ops w.store, rest, ?_, ?_, ?_⟩
      · unfold waitLoop
        rw [hp]
        simp [Res.world, h2, World.emit]
      · intro e he
        rcases List.mem_cons.mp he with h | h
        · exact Or.inl h
        · exact Or.inr (hev e h)
      · intro _
        rw [hcl rfl]
        exact List.suffix_cons _ _
    | null =>
      refine ⟨.select :: evs, applyOps ops w.store, rest, ?_, ?_, ?_⟩
      · unfold waitLoop
        rw [hp]
        simp [Res.world, h2, World.emit]
      · intro e he
        rcases List.mem_cons.mp he with h | h
        · exact Or.inl h
        · exact Or.inr (hev e h)
      · unfold waitLoop
        rw [hp]
        simp [Res.value]
    | again =>
      obtain ⟨evs2, st, pe, hw, hev2, hcl2⟩ := ih w1
      refine ⟨(.select :: evs) ++ evs2, st, pe, ?_, ?_, ?_⟩
      · unfold waitLoop
        rw [hp]
        simp only
        rw [hw, h2]
        simp [World.emit]
      · intro e he
        rcases List.mem_append.mp he with h | h
        · rcases List.mem_cons.mp h with h | h
          · exact Or.inl h
          · exact Or.inr (hev e h)
        · exact hev2 e h
      · unfold waitLoop
        rw [hp]
        intro hr
        exact (hcl2 hr).trans (List.suffix_append _ _)

/-- A peer that shows both ends Closed ends the wait at that pass. -/
theorem waitLoop_closed (domid vdev : Int) (w : World) (ops : List Op) (rest : List (List Op))
    (h : ShowsClosed domid vdev ops) :
    waitLoop domid vdev w (ops :: rest) = .ret ()
      { w with store := applyOps ops w.store, peers := rest,
               trace := w.trace ++ (.select :: closedPoll) } := by
  obtain ⟨hb, hf⟩ := h w.store
  simp [waitLoop, pollStates, World.emit, hb, hf, closedPoll]

/-- The wait loop takes the peers' coming writes from its argument. -/
theorem waitLoop_peers (domid vdev : Int) (w : World) (p l : List (List Op)) :
    waitLoop domid vdev { w with peers := p } l = waitLoop domid vdev w l := by
  cases l <;> simp [waitLoop]

/-- While the peers write nothing and the backend state is there and is not
`"6"`, the wait keeps polling. -/
theorem waitLoop_idle (domid vdev : Int) (b : String) (hb : b ≠ "6") :
    ∀ (k : Nat) (w : World) (l : List (List Op)),
      xenstore_be_read w.store domid vdev "state" = some b →
      waitLoop domid vdev w (List.replicate k [] ++ l)
        = waitLoop domid vdev { w with trace := w.trace ++ idlePolls b k } l := by
  intro k
  induction k with
  | zero => intro w l _; simp [idlePolls]
  | succ k ih =>
    intro w l hbe
    rw [List.replicate_succ, List.cons_append, waitLoop]
    have hs : applyOps [] w.store = w.store := rfl
    simp only [hs, pollStates, World.emit, hbe, hb, ne_eq, not_false_eq_true, if_true]
    rw [ih _ l (by simpa using hbe)]
    rw [← waitLoop_peers domid vdev _ w.peers l]
    simp [idlePolls]



/-! ### Device recreation engine -/

theorem split_after {q : Event → Bool} {A B pre post : List Event} {e : Event}
    (h : A ++ B = pre ++ e :: post) (hA : ∀ x ∈ A, q x = false) (he : q e = true) :
    ∃ t, pre = A ++ t := by
  rcases List.append_eq_append_iff.mp h with ⟨a', h1, _⟩ | ⟨c', h1, h2⟩
  · exact ⟨a', h1⟩
  · cases c' with
    | nil => exact ⟨[], by simpa using h1.symm⟩
    | cons c cs =>
      simp only [List.cons_append, List.cons.injEq] at h2
      have hmem : e ∈ A := by
        rw [h1, h2.1]
        simp
      rw [hA e hmem] at he
      exact absurd he (by decide)

theorem txn_events_destroys (ops : List Op) (n : Nat) (r : TxnEnd)
    (h : ops.any Op.removes = false) :
    ∀ x ∈ List.replicate n (Event.txn ops .conflict) ++ [Event.txn ops r],
      x.destroys = false := by
  intro x hx
  rcases List.mem_append.mp hx with hx | hx
  · rw [(List.mem_replicate.mp hx).2]; exact h
  · rw [List.mem_singleton.mp hx]; exact h

theorem poll_events_destroys (evs : List Event)
    (h : ∀ e ∈ evs, e = .select ∨ (∃ x, e = .read_be_state x) ∨ (∃ x, e = .read_fe_state x)) :
    ∀ x ∈ evs, x.destroys = false := by
  intro x hx
  rcases h x hx with h | ⟨y, h⟩ | ⟨y, h⟩ <;> rw [h] <;> rfl

theorem closeOps_removes (domid vdev : Int) : (closeOps domid vdev).any Op.removes = false := rfl

theorem createBatch_removes (domid vdev : Int) (a b c d : String) :
    (createBatch domid vdev a b c d).any Op.removes = false := rfl

theorem destroyOps_removes (domid vdev : Int) : (destroyOps domid vdev).any Op.removes = true := rfl

/-- A backend state that reads Connected is there and is not `"6"`. -/
theorem is_connected_state (s : Store) (domid vdev : Int)
    (h : is_connected s domid vdev = true) :
    ∃ b, xenstore_be_read s domid vdev "state" = some b ∧ b ≠ "6" := by
  unfold is_connected at h
  cases hb : xenstore_be_read s domid vdev "state" with
  | none => rw [hb] at h; exact absurd h (by decide)
  | some b =>
    refine ⟨b, rfl, ?_⟩
    rintro rfl
    rw [hb] at h
    revert h
    decide

theorem bePath_length (d v : Int) (k : String) : (bePath d v k).length = 8 := rfl

theorem fePath_length (d v : Int) (k : String) : (fePath d v k).length = 7 := rfl

theorem not_prefix_of_length {p q : Path} (h : p.length < q.length) : ¬ q <+: p :=
  fun hp => absurd hp.length_le (by omega)

/-- The store read after the close request is committed. -/
theorem closeOps_state (s : Store) (domid vdev : Int) :
    xenstore_be_read (applyOps (closeOps domid vdev) s) domid vdev "state" = some "5" := by
  simp only [closeOps, applyOps, List.foldl, applyOp, xenstore_be_write, xenstore_be_read]
  rw [xs_read_write _ _ _ _ (fun _ => rfl)]
  simp


/-! ### Formats -/

theorem createOps_inv (d v : Int) (a b c e : String) (batch : List Op)
    (h : createOps d v a b c e = some batch) :
    ∃ a' b' c' e', cformat a = some a' ∧ cformat b = some b' ∧ cformat c = some c' ∧
      cformat e = some e' ∧ batch = createBatch d v a' b' c' e' := by
  unfold createOps at h
  cases he : cformat e with
  | none => simp [he] at h
  | some e' =>
    cases hb : cformat b with
    | none => simp [he, hb] at h
    | some b' =>
      cases hc : cformat c with
      | none => simp [he, hb, hc] at h
      | some c' =>
        cases ha : cformat a with
        | none => simp [he, hb, hc, ha] at h
        | some a' =>
          simp only [he, hb, hc, ha, Option.some.injEq] at h
          exact ⟨a', b', c', e', rfl, rfl, rfl, rfl, h.symm⟩

theorem changeOps_of_formats (d v : Int) (a b c a' b' c' : String)
    (ha : cformat a = some a') (hb : cformat b = some b') (hc : cformat c = some c') :
    changeOps d v a b none c = some (changeBatch d v a' b' none c') := by
  unfold changeOps
  simp only [ha, hb, hc]

theorem cformat_empty : cformat "" = some "" := rfl

theorem cformat_phy : cformat "phy" = some "phy" := by decide



/-- The events of `recreate_single` on a connected backend, whatever the
outcome: the close request, the watches, the polls, and, only after the wait
returned, the unwatches, the destroy transaction and the create transaction. -/
theorem recreate_single_connected (domid vdev : Int) (a b c d : String) (w : World)
    (hconn : is_connected w.store domid vdev = true) :
    ∃ (n : Nat) (r : TxnEnd) (P : List Event),
      (recreate_single domid vdev a b c d w).world.trace = w.trace ++
        ((List.replicate n (Event.txn (closeOps domid vdev) .conflict)
            ++ [Event.txn (closeOps domid vdev) r])
          ++ [.watch (bePath domid vdev "state"), .watch (fePath domid vdev "state")] ++ P) ∧
      (n ≠ 0 → TxnEnd.conflict ∈ w.txnEnds) ∧
      (∀ pre e post, P = pre ++ e :: post → e.destroys = true → closedPoll <:+: pre) ∧
      ((recreate_single domid vdev a b c d w).value = some () →
        ∃ batch P1 n1 r1 n2 r2, createOps domid vdev a b c d = some batch ∧
          P = P1 ++ closedPoll ++
          [.unwatch (bePath domid vdev "state"), .unwatch (fePath domid vdev "state")] ++
          (List.replicate n1 (Event.txn (destroyOps domid vdev) .conflict)
            ++ [Event.txn (destroyOps domid vdev) r1]) ++
          (List.replicate n2 (Event.txn batch .conflict) ++ [Event.txn batch r2]) ∧
          (∀ x ∈ P1, x.destroys = false) ∧
          (TxnEnd.conflict ∉ w.txnEnds → n1 = 0 ∧ n2 = 0)) := by
  obtain ⟨n, r, -, -, hn, hclose⟩ := transaction_spec (closeOps domid vdev) w
  refine ⟨n, r, ?_⟩
  unfold recreate_single
  simp only [hconn, if_true]
  unfold cdrom_wait_for_disconnect
  simp only [emit_peers]
  generalize hw1 : ((transaction (closeOps domid vdev) w).emit
    (.watch (bePath domid vdev "state"))).emit (.watch (fePath domid vdev "state")) = w1
  have hw1t : w1.trace = w.trace ++ ((List.replicate n (Event.txn (closeOps domid vdev) .conflict)
            ++ [Event.txn (closeOps domid vdev) r])
          ++ [.watch (bePath domid vdev "state"), .watch (fePath domid vdev "state")]) := by
    rw [← hw1, hclose]; simp [World.emit]
  have hw1e : w1.txnEnds = w.txnEnds.drop (n + 1) := by
    rw [← hw1, hclose]; simp [World.emit]
  obtain ⟨evs, st, pe, hworld, hpoll, hret⟩ :=
    waitLoop_spec domid vdev (transaction (closeOps domid vdev) w).peers w1
  have hnd := poll_events_destroys evs hpoll
  cases hres : waitLoop domid vdev w1 (transaction (closeOps domid vdev) w).peers with
  | fault w2 =>
    rw [hres] at hworld
    simp only [Res.world] at hworld
    refine ⟨evs, ?_, hn, ?_, ?_⟩
    · simp [Res.andThen, Res.world, hworld, hw1t]
    · intro pre e post hsplit he
      have : e ∈ evs := by rw [hsplit]; simp
      rw [hnd e this] at he
      exact absurd he (by decide)
    · simp [Res.andThen, Res.value]
  | hang w2 =>
    rw [hres] at hworld
    simp only [Res.world] at hworld
    refine ⟨evs, ?_, hn, ?_, ?_⟩
    · simp [Res.andThen, Res.world, hworld, hw1t]
    · intro pre e post hsplit he
      have : e ∈ evs := by rw [hsplit]; simp
      rw [hnd e this] at he
      exact absurd he (by decide)
    · simp [Res.andThen, Res.value]
  | ret u w2 =>
    rw [hres] at hworld hret
    simp only [Res.world] at hworld
    obtain ⟨P1, hP1⟩ := hret rfl
    generalize hw3 : (w2.emit (.unwatch (bePath domid vdev "state"))).emit
      (.unwatch (fePath domid vdev "state")) = w3
    have hw3t : w3.trace = w1.trace ++ evs ++
        [.unwatch (bePath domid vdev "state"), .unwatch (fePath domid vdev "state")] := by
      rw [← hw3, hworld]; simp [World.emit]
    have hw3e : w3.txnEnds = w1.txnEnds := by
      rw [← hw3, hworld]; simp [World.emit]
    obtain ⟨n1, r1, -, -, hn1, hd⟩ := transaction_spec (destroyOps domid vdev) w3
    have hnd1 : ∀ x ∈ P1, x.destroys = false := by
      intro x hx
      exact hnd x (by rw [← hP1]; simp [hx])
    have hA : ∀ x ∈ evs ++ [Event.unwatch (bePath domid vdev "state"),
        Event.unwatch (fePath domid vdev "state")], x.destroys = false := by
      intro x hx
      rcases List.mem_append.mp hx with hx | hx
      · exact hnd x hx
      · simp at hx
        rcases hx with hx | hx <;> rw [hx] <;> rfl
    have hinfix : ∀ (B pre post : List Event) (e : Event),
        evs ++ [Event.unwatch (bePath domid vdev "state"),
          Event.unwatch (fePath domid vdev "state")] ++ B = pre ++ e :: post →
        e.destroys = true → closedPoll <:+: pre := by
      intro B pre post e hsplit he
      obtain ⟨t, ht⟩ := split_after hsplit hA he
      rw [ht, ← hP1]
      exact ⟨P1, [Event.unwatch (bePath domid vdev "state"),
          Event.unwatch (fePath domid vdev "state")] ++ t, by simp⟩
    have h3 : TxnEnd.conflict ∉ w.txnEnds → TxnEnd.conflict ∉ w3.txnEnds := by
      intro hnc
      rw [hw3e, hw1e]
      exact fun hm => hnc (List.mem_of_mem_drop hm)
    simp only [Res.andThen, hw3]
    cases hops : createOps domid vdev a b c d with
    | none =>
      refine ⟨evs ++ [.unwatch (bePath domid vdev "state"),
          .unwatch (fePath domid vdev "state")] ++
          (List.replicate n1 (Event.txn (destroyOps domid vdev) .conflict)
            ++ [Event.txn (destroyOps domid vdev) r1]), ?_, hn, ?_, ?_⟩
      · simp only [Res.world]
        rw [hd]
        simp [hw3t, hw1t]
      · intro pre e post hsplit he
        exact hinfix _ pre post e hsplit he
      · simp [Res.value]
    | some batch =>
      obtain ⟨n2, r2, -, -, hn2, hk⟩ := transaction_spec batch
        (transaction (destroyOps domid vdev) w3)
      refine ⟨evs ++ [.unwatch (bePath domid vdev "state"),
          .unwatch (fePath domid vdev "state")] ++
          ((List.replicate n1 (Event.txn (destroyOps domid vdev) .conflict)
              ++ [Event.txn (destroyOps domid vdev) r1]) ++
            (List.replicate n2 (Event.txn batch .conflict) ++ [Event.txn batch r2])),
        ?_, hn, ?_, ?_⟩
      · simp only [Res.world]
        rw [hk, hd]
        simp [hw3t, hw1t]
      · intro pre e post hsplit he
        exact hinfix _ pre post e hsplit he
      · intro _
        refine ⟨batch, P1, n1, r1, n2, r2, rfl, by rw [hP1]; simp, hnd1, ?_⟩
        intro hnc
        constructor
        · by_contra h0
          exact h3 hnc (hn1 h0)
        · by_contra h0
          exact transaction_noConflict _ _ (h3 hnc) (hn2 h0)



theorem peerCloses_showsClosed (domid vdev : Int) : ShowsClosed domid vdev (peerCloses domid vdev) := by
  intro s
  simp only [peerCloses, applyOps, List.foldl, applyOp, xenstore_be_read, xenstore_fe_read]
  constructor
  · rw [xs_read_write _ _ _ _ (fun h => absurd h (not_prefix_of_length (by simp [bePath_length, fePath_length])))]
    have hne : bePath domid vdev "state" ≠ fePath domid vdev "state" := by
      intro h
      have := congrArg List.length h
      simp [bePath_length, fePath_length] at this
    rw [if_neg hne, xs_read_write _ _ _ _ (fun _ => rfl)]
    simp
  · rw [xs_read_write _ _ _ _ (fun _ => rfl)]
    simp

/-- The disconnect wait returns once the peers, after `k` silent passes, show
both ends Closed, provided the backend state is there and is not `"6"` when
the wait starts. -/
theorem cdrom_wait_for_disconnect_returns (domid vdev : Int) (w : World) (k : Nat)
    (ops : List Op) (rest : List (List Op)) (b : String) (hb : b ≠ "6")
    (hbe : xenstore_be_read w.store domid vdev "state" = some b)
    (hp : w.peers = List.replicate k [] ++ ops :: rest) (hc : ShowsClosed domid vdev ops) :
    cdrom_wait_for_disconnect domid vdev w = .ret ()
      { w with store := applyOps ops w.store, peers := rest,
               trace := w.trace ++ ([.watch (bePath domid vdev "state"),
                 .watch (fePath domid vdev "state")] ++ idlePolls b k ++ (.select :: closedPoll) ++
                 [.unwatch (bePath domid vdev "state"), .unwatch (fePath domid vdev "state")]) } := by
  unfold cdrom_wait_for_disconnect
  simp only [emit_peers, hp]
  rw [waitLoop_idle domid vdev b hb k _ _ (by simpa [World.emit] using hbe),
    waitLoop_closed domid vdev _ ops rest hc]
  simp [Res.andThen, World.emit]

/-- C8 (handshake precondition), amended.  On a backend that reads Connected,
`recreate_single` first writes the close request `online=0`, `state=5` in one
transaction; no transaction that removes a record tree is issued before a pass
of the disconnect wait has read the backend and the frontend state as `"6"`;
and with peers that show both ends Closed after `k` silent passes, no
transaction conflict, and four strings of the caller that expand as formats
without argument, the call returns having issued exactly one destroy
transaction. -/
theorem recreate_single_handshake (domid vdev : Int)
    (tapdisk_params type physical params : String) (w : World)
    (hconn : is_connected w.store domid vdev = true) :
    ∃ evs, (recreate_single domid vdev tapdisk_params type physical params w).world.trace
        = w.trace ++ evs ∧
      (∃ r rest, evs = Event.txn [Op.write (bePath domid vdev "online") "0",
          Op.write (bePath domid vdev "state") "5"] r :: rest) ∧
      (∀ pre e post, evs = pre ++ e :: post → e.destroys = true → closedPoll <:+: pre) ∧
      (∀ (k : Nat) (ops : List Op) (rest : List (List Op)),
        w.peers = List.replicate k [] ++ ops :: rest → ShowsClosed domid vdev ops →
        TxnEnd.conflict ∉ w.txnEnds →
        (createOps domid vdev tapdisk_params type physical params).isSome = true →
        (recreate_single domid vdev tapdisk_params type physical params w).value = some () ∧
          (evs.filter Event.destroys).length = 1) := by
  obtain ⟨n, r, P, htrace, hn, hP, hret⟩ :=
    recreate_single_connected domid vdev tapdisk_params type physical params w hconn
  have hC := txn_events_destroys (closeOps domid vdev) n r (closeOps_removes domid vdev)
  refine ⟨_, htrace, ?_, ?_, ?_⟩
  · cases n with
    | zero =>
      exact ⟨r, [.watch (bePath domid vdev "state"), .watch (fePath domid vdev "state")] ++ P,
        by simp [closeOps, xenstore_be_write]⟩
    | succ m =>
      exact ⟨.conflict, List.replicate m (Event.txn (closeOps domid vdev) .conflict) ++
        [Event.txn (closeOps domid vdev) r] ++
        [.watch (bePath domid vdev "state"), .watch (fePath domid vdev "state")] ++ P,
        by simp [closeOps, xenstore_be_write, List.replicate_succ]⟩
  · intro pre e post hsplit he
    have hA : ∀ x ∈ (List.replicate n (Event.txn (closeOps domid vdev) .conflict)
            ++ [Event.txn (closeOps domid vdev) r])
          ++ [.watch (bePath domid vdev "state"), .watch (fePath domid vdev "state")],
        x.destroys = false := by
      intro x hx
      rcases List.mem_append.mp hx with hx | hx
      · exact hC x hx
      · simp at hx
        rcases hx with hx | hx <;> rw [hx] <;> rfl
    obtain ⟨t, ht⟩ := split_after hsplit hA he
    have hP' : P = t ++ e :: post := by
      rw [ht] at hsplit
      have h2 : ∀ (A : List Event), A ++ P = A ++ t ++ e :: post → P = t ++ e :: post := by
        intro A h
        rw [List.append_assoc] at h
        exact List.append_cancel_left h
      exact h2 _ hsplit
    rw [ht]
    exact (hP t e post hP' he).trans (List.suffix_append _ t).isInfix
  · intro k ops rest hp hc hnc hfmt
    have hval : (recreate_single domid vdev tapdisk_params type physical params w).value
        = some () := by
      obtain ⟨b0, hb0, hb0ne⟩ := is_connected_state _ _ _ hconn
      have hst : ∃ b, b ≠ "6" ∧ xenstore_be_read
          (transaction (closeOps domid vdev) w).store domid vdev "state" = some b := by
        obtain ⟨n', r', -, -, -, heq⟩ := transaction_spec (closeOps domid vdev) w
        rw [heq]
        by_cases hr : r' = .failed
        · exact ⟨b0, hb0ne, by simpa [hr] using hb0⟩
        · exact ⟨"5", by decide, by simpa [hr] using closeOps_state w.store domid vdev⟩
      obtain ⟨b, hbne, hbe⟩ := hst
      obtain ⟨batch, hbatch⟩ := Option.isSome_iff_exists.mp hfmt
      unfold recreate_single
      simp only [hconn, if_true]
      rw [cdrom_wait_for_disconnect_returns domid vdev _ k ops rest b hbne hbe
        (by rw [transaction_peers]; exact hp) hc]
      simp [Res.andThen, Res.value, hbatch]
    refine ⟨hval, ?_⟩
    obtain ⟨batch, P1, n1, r1, n2, r2, hbatch, hPeq, hP1, hzero⟩ := hret hval
    obtain ⟨a', b', c', e', -, -, -, -, hb⟩ := createOps_inv _ _ _ _ _ _ _ hbatch
    obtain ⟨h1, h2⟩ := hzero hnc
    have h0 : n = 0 := by
      by_contra h
      exact hnc (hn h)
    subst h0 h1 h2
    rw [hPeq, hb]
    have hf : P1.filter Event.destroys = [] := by
      rw [List.filter_eq_nil_iff]
      intro x hx
      simp [hP1 x hx]
    simp [List.filter_append, hf, closedPoll, List.filter_cons, Event.destroys, closeOps_removes,
      createBatch_removes, destroyOps_removes]

/-- C8, counterexample.  Guest 1 is connected, the peers show both ends Closed
at the first pass and no transaction conflicts; the locator handed down is
`"aio:/%s.iso"`.  The call issues its one destroy transaction and then stops,
without returning, at the write of `tapdisk-params`, whose format takes an
argument that was not passed. -/
theorem recreate_single_stops_at_directive :
    is_connected (worldOf storeAlone [] [peerCloses 1 5632] (0, none)).store 1 5632 = true ∧
    ShowsClosed 1 5632 (peerCloses 1 5632) ∧
    (recreate_single 1 5632 "aio:/%s.iso" "phy" "fe:3" "/dev/xen/blktap-2/tapdev3"
      (worldOf storeAlone [] [peerCloses 1 5632] (0, none))).faults = true ∧
    (recreate_single 1 5632 "aio:/%s.iso" "phy" "fe:3" "/dev/xen/blktap-2/tapdev3"
      (worldOf storeAlone [] [peerCloses 1 5632] (0, none))).value = none ∧
    ((recreate_single 1 5632 "aio:/%s.iso" "phy" "fe:3" "/dev/xen/blktap-2/tapdev3"
      (worldOf storeAlone [] [peerCloses 1 5632] (0, none))).world.trace.filter
        Event.destroys).length = 1 :=
  ⟨by decide, peerCloses_showsClosed 1 5632, by decide, by decide, by decide⟩

/-- C8, applied: guest 1, connected, with peers that stay silent for one pass
and show both ends Closed at the next. -/
theorem recreate_single_handshake_witness :
    is_connected (worldOf storeAlone [] [[], peerCloses 1 5632] (0, none)).store 1 5632 = true ∧
    (recreate_single 1 5632 "aio:/a.iso" "phy" "fe:3" "/dev/xen/blktap-2/tapdev3"
      (worldOf storeAlone [] [[], peerCloses 1 5632] (0, none))).value = some () := by
  have hconn : is_connected (worldOf storeAlone [] [[], peerCloses 1 5632] (0, none)).store
      1 5632 = true := by decide
  refine ⟨hconn, ?_⟩
  obtain ⟨evs, -, -, -, h⟩ := recreate_single_handshake 1 5632 "aio:/a.iso" "phy" "fe:3"
    "/dev/xen/blktap-2/tapdev3" (worldOf storeAlone [] [[], peerCloses 1 5632] (0, none)) hconn
  exact (h 1 (peerCloses 1 5632) [] rfl (peerCloses_showsClosed 1 5632) (by decide)
    (by decide)).1



/-! ### Reads of backend fields through the writes of the daemon -/

theorem bePath_eq_iff (g v d v' : Int) (k k' : String) :
    bePath g v k = bePath d v' k' ↔ fmtD g = fmtD d ∧ fmtD v = fmtD v' ∧ k = k' := by
  simp [bePath, VBD_BACKEND_FORMAT]

theorem be_read_write_be (s : Store) (g v d v' : Int) (k k' val : String) :
    xenstore_be_read (xs_write s (bePath d v' k') val) g v k
      = if fmtD g = fmtD d ∧ fmtD v = fmtD v' ∧ k = k' then some val
        else xenstore_be_read s g v k := by
  unfold xenstore_be_read
  rw [xs_read_write _ _ _ _ (fun h => List.IsPrefix.eq_of_length h (by simp [bePath_length]))]
  simp only [bePath_eq_iff]

/-- Reads of backend fields after the writes of `cdrom_change_single`. -/
theorem changeBatch_read (s : Store) (d v' g v : Int) (a b c k : String) :
    xenstore_be_read (applyOps (changeBatch d v' a b none c) s) g v k
      = if fmtD g = fmtD d ∧ fmtD v = fmtD v' ∧ k = "tapdisk-params" then some c
        else if fmtD g = fmtD d ∧ fmtD v = fmtD v' ∧ k = "type" then some b
        else if fmtD g = fmtD d ∧ fmtD v = fmtD v' ∧ k = "params" then some a
        else xenstore_be_read s g v k := by
  simp only [changeBatch, applyOps, List.foldl, applyOp, xenstore_be_write, List.append_nil,
    List.cons_append, List.nil_append, be_read_write_be]

theorem toInt32_natAbs_lt (i : Int) : (toInt32 i).natAbs < 10 ^ 10 := by
  unfold toInt32
  omega

theorem toDigits10_length (n : Nat) (h : n < 10 ^ 10) : (Nat.toDigits 10 n).length ≤ 10 := by
  exact Nat.repr_length n 10 (by decide) h

theorem fmtD_length (i : Int) : (fmtD i).length ≤ 11 := by
  unfold fmtD
  have := toDigits10_length _ (toInt32_natAbs_lt i)
  split
  · show ('-' :: Nat.toDigits 10 (toInt32 i).natAbs).length ≤ 11
    rw [List.length_cons]
    omega
  · show (Nat.toDigits 10 (toInt32 i).natAbs).length ≤ 11
    omega

theorem snprintf_of_length (n : Nat) (s : String) (h : s.length ≤ n - 1) : snprintf n s = s := by
  unfold snprintf
  rw [List.take_of_length_le (show s.data.length ≤ n - 1 from h)]

theorem snprintf_tapdev (i : Int) :
    snprintf 256 ("/dev/xen/blktap-2/tapdev" ++ fmtD i) = "/dev/xen/blktap-2/tapdev" ++ fmtD i := by
  apply snprintf_of_length
  have := fmtD_length i
  simp only [String.length_append]
  have h24 : ("/dev/xen/blktap-2/tapdev" : String).length = 24 := by decide
  omega

theorem snprintf_aio (path : String) (h : path.length ≤ 251) :
    snprintf 256 ("aio:" ++ path) = "aio:" ++ path := by
  apply snprintf_of_length
  simp only [String.length_append]
  have h4 : ("aio:" : String).length = 4 := by decide
  omega

/-- A string without `%` is its own expansion. -/
theorem formatChars_of_no_percent (l : List Char) (h : '%' ∉ l) : formatChars l = some l := by
  induction l with
  | nil => rfl
  | cons c r ih =>
    have hc : c ≠ '%' := fun hc => h (by rw [hc]; exact List.mem_cons_self _ _)
    have hr : '%' ∉ r := fun hr => h (List.mem_cons_of_mem _ hr)
    cases r with
    | nil => simp [formatChars, hc]
    | cons d rest =>
      rw [formatChars, if_neg hc, ih hr]
      rfl

theorem cformat_of_no_percent (s : String) (h : '%' ∉ s.data) : cformat s = some s := by
  unfold cformat
  rw [formatChars_of_no_percent s.data h]
  rfl

theorem digitChar_ne_percent (n : Nat) : Nat.digitChar n ≠ '%' := by
  by_cases h : n < 16
  · interval_cases n <;> decide
  · have hstar : Nat.digitChar n = '*' := by
      unfold Nat.digitChar
      simp only [show n ≠ 0 from by omega, show n ≠ 1 from by omega, show n ≠ 2 from by omega, show n ≠ 3 from by omega, show n ≠ 4 from by omega, show n ≠ 5 from by omega, show n ≠ 6 from by omega, show n ≠ 7 from by omega, show n ≠ 8 from by omega, show n ≠ 9 from by omega, show n ≠ 10 from by omega, show n ≠ 11 from by omega, show n ≠ 12 from by omega, show n ≠ 13 from by omega, show n ≠ 14 from by omega, show n ≠ 15 from by omega, if_false]
    rw [hstar]
    decide

theorem toDigitsCore_no_percent (b : Nat) : ∀ (f n : Nat) (acc : List Char),
    '%' ∉ acc → '%' ∉ Nat.toDigitsCore b f n acc := by
  intro f
  induction f with
  | zero => intro n acc h; simpa [Nat.toDigitsCore] using h
  | succ f ih =>
    intro n acc h
    unfold Nat.toDigitsCore
    have h' : '%' ∉ Nat.digitChar (n % b) :: acc := by
      intro hm
      rcases List.mem_cons.mp hm with hm | hm
      · exact digitChar_ne_percent _ hm.symm
      · exact h hm
    simp only
    split
    · exact h'
    · exact ih _ _ h'

theorem toDigits_no_percent (b n : Nat) : '%' ∉ Nat.toDigits b n :=
  toDigitsCore_no_percent b _ _ [] (by simp)

theorem fmtD_no_percent (i : Int) : '%' ∉ (fmtD i).data := by
  unfold fmtD
  split
  · intro h
    rcases List.mem_cons.mp h with h | h
    · exact absurd h (by decide)
    · exact toDigits_no_percent _ _ h
  · exact toDigits_no_percent _ _

theorem cformat_tapdev (i : Int) :
    cformat ("/dev/xen/blktap-2/tapdev" ++ fmtD i) = some ("/dev/xen/blktap-2/tapdev" ++ fmtD i) := by
  apply cformat_of_no_percent
  rw [String.data_append]
  intro h
  rcases List.mem_append.mp h with h | h
  · revert h; decide
  · exact fmtD_no_percent i h

theorem tapCalls_append (a b : List Event) : tapCalls (a ++ b) = tapCalls a ++ tapCalls b := by
  simp [tapCalls]

theorem transaction_trace (ops : List Op) (w : World) :
    ∃ evs, (transaction ops w).trace = w.trace ++ evs ∧ tapCalls evs = [] ∧
      (∀ e ∈ evs, ∃ r, e = .txn ops r) ∧
      (TxnEnd.failed ∉ w.txnEnds → Event.txn ops .committed ∈ evs) := by
  obtain ⟨n, r, hr, hf, -, heq⟩ := transaction_spec ops w
  refine ⟨_, by rw [heq], ?_, ?_, ?_⟩
  · simp [tapCalls, List.filter_append, Event.isTapCall, List.filter_replicate]
  · intro e he
    rcases List.mem_append.mp he with h | h
    · exact ⟨_, (List.mem_replicate.mp h).2⟩
    · exact ⟨_, List.mem_singleton.mp h⟩
  · intro hnf
    have : r = .committed := by
      cases r with
      | committed => rfl
      | conflict => exact absurd rfl hr
      | failed => exact absurd (hf rfl) hnf
    simp [this]

theorem transaction_be_read (ops : List Op) (w : World) (g v : Int) (k : String)
    (h : xenstore_be_read (applyOps ops w.store) g v k = xenstore_be_read w.store g v k) :
    xenstore_be_read (transaction ops w).store g v k = xenstore_be_read w.store g v k := by
  obtain ⟨n, r, -, -, -, heq⟩ := transaction_spec ops w
  rw [heq]
  by_cases hr : r = .failed <;> simp [hr, h]

theorem domPath_image_not_prefix_be (g d v : Int) (k : String) :
    ¬ domPath g ["image", "device-model-domid"] <+: bePath d v k := by
  rintro ⟨t, ht⟩
  simp [domPath, bePath, VBD_BACKEND_FORMAT] at ht

/-- The writes of `cdrom_change_single` leave the helper record of every guest
as it is. -/
theorem changeBatch_stubdom (s : Store) (d v g : Int) (a b c : String) :
    stubdom_of (applyOps (changeBatch d v a b none c) s) g = stubdom_of s g := by
  have hne : ∀ k, domPath g ["image", "device-model-domid"] ≠ bePath d v k := by
    intro k h
    exact domPath_image_not_prefix_be g d v k (by rw [h])
  unfold stubdom_of xenstore_dom_read
  simp only [changeBatch, applyOps, List.foldl, applyOp, xenstore_be_write, List.append_nil,
    List.cons_append, List.nil_append]
  rw [xs_read_write _ _ _ _ (fun h => absurd h (domPath_image_not_prefix_be _ _ _ _)),
    if_neg (hne _),
    xs_read_write _ _ _ _ (fun h => absurd h (domPath_image_not_prefix_be _ _ _ _)),
    if_neg (hne _),
    xs_read_write _ _ _ _ (fun h => absurd h (domPath_image_not_prefix_be _ _ _ _)),
    if_neg (hne _)]

theorem changeBatch_restructures (d v : Int) (a b c : String) :
    (changeBatch d v a b none c).any (fun op => op.removes || op.creates) = false := rfl

theorem transaction_changeBatch_stubdom (d v g : Int) (a b c : String) (w : World) :
    stubdom_of (transaction (changeBatch d v a b none c) w).store g = stubdom_of w.store g := by
  obtain ⟨n, r, -, -, -, heq⟩ := transaction_spec (changeBatch d v a b none c) w
  rw [heq]
  by_cases hr : r = .failed <;> simp [hr, changeBatch_stubdom]

theorem transaction_changeBatch_connected (d v g v' : Int) (a b c : String) (w : World) :
    is_connected (transaction (changeBatch d v a b none c) w).store g v'
      = is_connected w.store g v' := by
  unfold is_connected
  rw [transaction_be_read _ _ _ _ _ (by
    rw [changeBatch_read, if_neg (fun h => absurd h.2.2 (by decide)),
      if_neg (fun h => absurd h.2.2 (by decide)), if_neg (fun h => absurd h.2.2 (by decide))])]

/-- What `cdrom_change` does, with no new physical device and formats that
expand: it returns; it leaves the instance list, the peers and the create
result alone, issues no control call and no transaction that removes or creates
a record tree, keeps the helper records and the backend states, and, when no
transaction fails, leaves `params`, `type` and `tapdisk-params` of the guest's
and of its helper's backend record at the expanded values and every other
backend field as it was. -/
theorem cdrom_change_spec (d v : Int) (a b c a' b' c' : String) (w : World)
    (ha : cformat a = some a') (hb : cformat b = some b') (hc : cformat c = some c') :
    ∃ w' evs, cdrom_change d v a b none c w = .ret () w' ∧ w'.trace = w.trace ++ evs ∧
      tapCalls evs = [] ∧ (∀ e ∈ evs, e.restructures = false) ∧
      w'.taps = w.taps ∧ w'.peers = w.peers ∧ w'.created = w.created ∧
      (∀ g, stubdom_of w'.store g = stubdom_of w.store g) ∧
      (∀ g v', is_connected w'.store g v' = is_connected w.store g v') ∧
      (TxnEnd.failed ∉ w.txnEnds →
        TxnEnd.failed ∉ w'.txnEnds ∧
        ∀ g v' k, xenstore_be_read w'.store g v' k =
          if ((fmtD g = fmtD d ∨ (stubdom_of w.store d ≠ -1 ∧ fmtD g = fmtD (stubdom_of w.store d)))
              ∧ fmtD v' = fmtD v) ∧ k = "tapdisk-params" then some c'
          else if ((fmtD g = fmtD d ∨ (stubdom_of w.store d ≠ -1 ∧ fmtD g = fmtD (stubdom_of w.store d)))
              ∧ fmtD v' = fmtD v) ∧ k = "type" then some b'
          else if ((fmtD g = fmtD d ∨ (stubdom_of w.store d ≠ -1 ∧ fmtD g = fmtD (stubdom_of w.store d)))
              ∧ fmtD v' = fmtD v) ∧ k = "params" then some a'
          else xenstore_be_read w.store g v' k) := by
  have hres : ∀ (x : Int) (e : Event), (∃ r, e = .txn (changeBatch x v a' b' none c') r) →
      e.restructures = false := by
    rintro x e ⟨r, rfl⟩
    exact changeBatch_restructures x v a' b' c'
  unfold cdrom_change cdrom_change_single
  simp only [changeOps_of_formats _ v a b c a' b' c' ha hb hc, Res.andThen]
  obtain ⟨e1, ht1, hc1, hx1, -⟩ := transaction_trace (changeBatch d v a' b' none c') w
  by_cases hs : stubdom_of w.store d = -1
  · simp only [hs, ne_eq, not_true_eq_false, if_false, false_and, or_false]
    refine ⟨_, e1, rfl, ht1, hc1, fun e he => hres d e (hx1 e he), transaction_taps _ _,
      transaction_peers _ _, transaction_created _ _, ?_, ?_, ?_⟩
    · exact fun g => transaction_changeBatch_stubdom d v g a' b' c' w
    · exact fun g v' => transaction_changeBatch_connected d v g v' a' b' c' w
    · intro hnf
      refine ⟨transaction_noFail _ _ hnf, ?_⟩
      intro g v' k
      rw [transaction_store _ _ hnf, changeBatch_read]
      simp only [and_assoc]
  · simp only [hs, ne_eq, not_false_eq_true, if_true, true_and]
    obtain ⟨e2, ht2, hc2, hx2, -⟩ := transaction_trace
      (changeBatch (stubdom_of w.store d) v a' b' none c')
      (transaction (changeBatch d v a' b' none c') w)
    refine ⟨_, e1 ++ e2, rfl, by rw [ht2, ht1, List.append_assoc],
      by rw [tapCalls_append, hc1, hc2]; rfl,
      ?_, by rw [transaction_taps, transaction_taps],
      by rw [transaction_peers, transaction_peers],
      by rw [transaction_created, transaction_created], ?_, ?_, ?_⟩
    · intro e he
      rcases List.mem_append.mp he with h | h
      · exact hres d e (hx1 e h)
      · exact hres _ e (hx2 e h)
    · intro g
      rw [transaction_changeBatch_stubdom, transaction_changeBatch_stubdom]
    · intro g v'
      rw [transaction_changeBatch_connected, transaction_changeBatch_connected]
    · intro hnf
      have hnf1 := transaction_noFail (changeBatch d v a' b' none c') w hnf
      refine ⟨transaction_noFail _ _ hnf1, ?_⟩
      intro g v' k
      rw [transaction_store _ _ hnf1, changeBatch_read, transaction_store _ _ hnf,
        changeBatch_read]
      generalize fmtD g = G
      generalize fmtD d = D
      generalize fmtD (stubdom_of w.store d) = H
      generalize fmtD v' = V'
      generalize fmtD v = V
      split_ifs <;> simp_all



/-! ### Recreation -/

/-- Past the locator, `blktap_change_iso` with a non-empty path ejects and then
inserts; the eject returns and changes nothing but the three fields it empties
and the trace. -/
theorem blktap_change_iso_insert (path : String) (g : Int) (w : World) (m : Int)
    (hpath : path ≠ "") (hv : cdrom_vdev_of_domid w.store g ≠ -1)
    (hm : cdrom_tap_minor_of_vdev w.store g (cdrom_vdev_of_domid w.store g) = some m)
    (hm0 : 0 ≤ m) :
    ∃ w1 evs, cdrom_change g (cdrom_vdev_of_domid w.store g) "" "" none "" w = .ret () w1 ∧
      blktap_change_iso path g w = insert_iso path g (cdrom_vdev_of_domid w.store g) m w1 ∧
      w1.trace = w.trace ++ evs ∧ tapCalls evs = [] ∧ (∀ e ∈ evs, e.restructures = false) ∧
      w1.taps = w.taps ∧ w1.peers = w.peers ∧ w1.created = w.created ∧
      (∀ d, stubdom_of w1.store d = stubdom_of w.store d) ∧
      (∀ d v', is_connected w1.store d v' = is_connected w.store d v') ∧
      (TxnEnd.failed ∉ w.txnEnds → TxnEnd.failed ∉ w1.txnEnds ∧
        ∀ d, xenstore_be_read w1.store d (cdrom_vdev_of_domid w.store g) "physical-device"
          = xenstore_be_read w.store d (cdrom_vdev_of_domid w.store g) "physical-device") := by
  obtain ⟨w1, evs, hr, ht, hc, hx, htaps, hpeers, hcreated, hstub, hconn, hfacts⟩ :=
    cdrom_change_spec g (cdrom_vdev_of_domid w.store g) "" "" "" "" "" "" w
      cformat_empty cformat_empty cformat_empty
  refine ⟨w1, evs, hr, ?_, ht, hc, hx, htaps, hpeers, hcreated, hstub, hconn, ?_⟩
  · unfold blktap_change_iso
    simp only [hv, if_false, hm, not_lt.mpr hm0, hr, Res.andThen, hpath]
  · intro hnf
    obtain ⟨h1, h2⟩ := hfacts hnf
    refine ⟨h1, fun d => ?_⟩
    rw [h2, if_neg (fun h => absurd h.2 (by decide)), if_neg (fun h => absurd h.2 (by decide)),
      if_neg (fun h => absurd h.2 (by decide))]

/-- C6 (Branch B, in-place reuse), amended.  For a non-empty image path of at
most 251 bytes whose locator `"aio:" ++ path` expands as a format without
argument to `tp` (to itself when the path has no `%`), and a guest whose old
minor `m` is listed by the control service, is not shared (the sharing scan
runs on the store as the eject left it), and for which the search finds no
instance serving the image: `blktap_change_iso` returns true; its control calls
are the two listings, then the close and the read-only reopen of minor `m` with
locator `"aio:" ++ path`; no transaction it issues removes or creates a record
tree; and, when no transaction fails, on return the backend record of the guest
and of its helper has `params = "/dev/xen/blktap-2/tapdev<m>"`, `type = "phy"`,
`tapdisk-params = tp` and its `physical-device` as before. -/
theorem blktap_change_iso_reuse (path tp : String) (g : Int) (w : World) (m : Int) (tap : Tap)
    (hpath : path ≠ "") (hlen : path.length ≤ 251)
    (hfmt : cformat ("aio:" ++ path) = some tp)
    (hv : cdrom_vdev_of_domid w.store g ≠ -1)
    (hm : cdrom_tap_minor_of_vdev w.store g (cdrom_vdev_of_domid w.store g) = some m)
    (hm0 : 0 ≤ m)
    (hsh : cdrom_tapdev_is_shared
      (cdrom_change g (cdrom_vdev_of_domid w.store g) "" "" none "" w).world.store m g
        = some false)
    (hex : find_tap_with_path w.taps path < 0)
    (htap : tap_of_minor m w.taps = some tap) :
    ∃ w' evs, blktap_change_iso path g w = .ret true w' ∧ w'.trace = w.trace ++ evs ∧
      tapCalls evs = [.tap_ctl_list, .tap_ctl_list, .tap_ctl_close tap.id m 0,
        .tap_ctl_open_flags tap.id m ("aio:" ++ path) .TAPDISK_MESSAGE_FLAG_RDONLY] ∧
      (∀ e ∈ evs, e.restructures = false) ∧
      (TxnEnd.failed ∉ w.txnEnds → ∀ d, (d = g ∨ (d = stubdom_of w.store g ∧ d ≠ -1)) →
        xenstore_be_read w'.store d (cdrom_vdev_of_domid w.store g) "params"
          = some ("/dev/xen/blktap-2/tapdev" ++ fmtD m) ∧
        xenstore_be_read w'.store d (cdrom_vdev_of_domid w.store g) "type" = some "phy" ∧
        xenstore_be_read w'.store d (cdrom_vdev_of_domid w.store g) "tapdisk-params"
          = some tp ∧
        xenstore_be_read w'.store d (cdrom_vdev_of_domid w.store g) "physical-device"
          = xenstore_be_read w.store d (cdrom_vdev_of_domid w.store g) "physical-device") := by
  obtain ⟨w1, e1, hr1, hins, ht1, hc1, hx1, htaps1, -, -, hstub1, -, hfacts1⟩ :=
    blktap_change_iso_insert path g w m hpath hv hm hm0
  rw [hr1] at hsh
  simp only [Res.world] at hsh
  rw [hins]
  generalize hvd : cdrom_vdev_of_domid w.store g = vdev at *
  unfold insert_iso
  simp only [hsh, htaps1, not_le.mpr hex, if_false, Bool.not_false, if_true]
  unfold branch_reuse cdrom_tap_close_and_load
  simp only [emit_taps, htaps1, htap, if_true, snprintf_aio path hlen, snprintf_tapdev]
  generalize hw3 : (((w1.emit .tap_ctl_list).emit .tap_ctl_list).emit
    (.tap_ctl_close tap.id m 0)).emit (.tap_ctl_open_flags tap.id m
      ("aio:" ++ path) .TAPDISK_MESSAGE_FLAG_RDONLY) = w3
  have h3store : w3.store = w1.store := by rw [← hw3]; rfl
  have h3ends : w3.txnEnds = w1.txnEnds := by rw [← hw3]; rfl
  have h3trace : w3.trace = w1.trace ++ [.tap_ctl_list, .tap_ctl_list, .tap_ctl_close tap.id m 0,
      .tap_ctl_open_flags tap.id m ("aio:" ++ path) .TAPDISK_MESSAGE_FLAG_RDONLY] := by
    rw [← hw3]; simp [World.emit]
  obtain ⟨w4, e2, hr2, ht2, hc2, hx2, -, -, -, -, -, hfacts2⟩ := cdrom_change_spec g vdev
    ("/dev/xen/blktap-2/tapdev" ++ fmtD m) "phy" ("aio:" ++ path)
    ("/dev/xen/blktap-2/tapdev" ++ fmtD m) "phy" tp w3 (cformat_tapdev m) cformat_phy hfmt
  rw [hr2]
  refine ⟨w4, e1 ++ ([.tap_ctl_list, .tap_ctl_list, .tap_ctl_close tap.id m 0,
      .tap_ctl_open_flags tap.id m ("aio:" ++ path) .TAPDISK_MESSAGE_FLAG_RDONLY] ++ e2), rfl, ?_,
    ?_, ?_, ?_⟩
  · rw [ht2, h3trace, ht1]; simp only [List.append_assoc]
  · rw [tapCalls_append, tapCalls_append, hc1, hc2]; rfl
  · intro e he
    rcases List.mem_append.mp he with h | h
    · exact hx1 e h
    · rcases List.mem_append.mp h with h | h
      · simp only [List.mem_cons, List.mem_singleton, List.not_mem_nil, or_false] at h
        rcases h with h | h | h | h <;> rw [h] <;> rfl
      · exact hx2 e h
  · intro hnf d hd
    obtain ⟨hnf1, hphys1⟩ := hfacts1 hnf
    obtain ⟨-, hread2⟩ := hfacts2 (by rw [h3ends]; exact hnf1)
    have hcond : (fmtD d = fmtD g ∨ (stubdom_of w3.store g ≠ -1 ∧
        fmtD d = fmtD (stubdom_of w3.store g))) ∧ fmtD vdev = fmtD vdev := by
      refine ⟨?_, rfl⟩
      rw [h3store, hstub1]
      rcases hd with rfl | ⟨rfl, hd⟩
      · exact Or.inl rfl
      · exact Or.inr ⟨hd, rfl⟩
    rw [hread2, hread2, hread2, hread2]
    simp only [hcond, true_and]
    refine ⟨by simp, by simp, by simp, ?_⟩
    rw [if_neg (by decide), if_neg (by decide), if_neg (by decide), h3store, hphys1]



/-! ### Calls that never return -/

/-- C2 (eject idempotence), the code at the failing input.  The first eject of
guest 1 returns true and leaves `params`, `type` and `tapdisk-params` empty; the
second eject, run on the store the first one left, reads the minor at offset 24
of the now empty `params`, past the end of the string. -/
theorem eject_twice_reads_past_params :
    (blktap_change_iso "" 1
      (worldOf storeAlone [⟨20, 3, some "/a.iso"⟩] [] (0, none))).value = some true ∧
    xenstore_be_read (blktap_change_iso "" 1
      (worldOf storeAlone [⟨20, 3, some "/a.iso"⟩] [] (0, none))).world.store 1 5632 "params"
        = some "" ∧
    xenstore_be_read (blktap_change_iso "" 1
      (worldOf storeAlone [⟨20, 3, some "/a.iso"⟩] [] (0, none))).world.store 1 5632 "type"
        = some "" ∧
    xenstore_be_read (blktap_change_iso "" 1
      (worldOf storeAlone [⟨20, 3, some "/a.iso"⟩] [] (0, none))).world.store 1 5632
        "tapdisk-params" = some "" ∧
    cdrom_tap_minor_of_vdev (blktap_change_iso "" 1
      (worldOf storeAlone [⟨20, 3, some "/a.iso"⟩] [] (0, none))).world.store 1 5632 = none ∧
    (blktap_change_iso "" 1 (blktap_change_iso "" 1
      (worldOf storeAlone [⟨20, 3, some "/a.iso"⟩] [] (0, none))).world).faults = true := by
  decide

/-- C3, counterexample.  Guest 1 records helper 2 in `image/device-model-domid`,
both have a CD-ROM vbd bound to minor 3 and no other guest is listed; helper 2
has no `target` record, and it is counted as a sharer. -/
theorem is_shared_counts_helper_without_target :
    stubdom_of storeHelperNoTarget 1 = 2 ∧
    cdrom_tap_minor_of_vdev storeHelperNoTarget 1 (cdrom_vdev_of_domid storeHelperNoTarget 1)
      = some 3 ∧
    cdrom_tap_minor_of_vdev storeHelperNoTarget 2 (cdrom_vdev_of_domid storeHelperNoTarget 2)
      = some 3 ∧
    xs_directory storeHelperNoTarget ["local", "domain", "0", "backend", "vbd"]
      = some ["1", "2"] ∧
    cdrom_tapdev_is_shared storeHelperNoTarget 3 1 = some true := by
  decide

/-- C3 (sharing exclusion), amended.  When every guest listed in the backend
directory is `g` itself, or names `g` in its own `target` record, or has its
CD-ROM vbd bound to a minor other than `m`, `cdrom_tapdev_is_shared m g` is
false: the helper of `g` is the guest whose `target` record is `g`, and it is
never counted. -/
theorem cdrom_tapdev_is_shared_skips_helper (s : Store) (m g : Int)
    (h : ∀ x ∈ (xs_directory s ["local", "domain", "0", "backend", "vbd"]).getD [],
      toInt32 (strtol x) = g
      ∨ (∃ t, xenstore_dom_read s (toInt32 (strtol x)) ["target"] = some t ∧ strtol t = g)
      ∨ (∃ tm, cdrom_tap_minor_of_vdev s (toInt32 (strtol x))
            (cdrom_vdev_of_domid s (toInt32 (strtol x))) = some tm ∧ tm ≠ m)) :
    cdrom_tapdev_is_shared s m g = some false := by
  unfold cdrom_tapdev_is_shared
  cases hd : xs_directory s ["local", "domain", "0", "backend", "vbd"] with
  | none => rfl
  | some domids =>
    rw [hd] at h
    exact is_shared_scan_false s m g domids h

/-- C3 amended, applied: helper 2 of guest 1 names guest 1 in its `target`
record and is bound to the same minor 3. -/
theorem cdrom_tapdev_is_shared_skips_helper_witness :
    stubdom_of storeHelper 1 = 2 ∧
    cdrom_tap_minor_of_vdev storeHelper 2 (cdrom_vdev_of_domid storeHelper 2) = some 3 ∧
    cdrom_tapdev_is_shared storeHelper 3 1 = some false := by
  refine ⟨by decide, by decide, cdrom_tapdev_is_shared_skips_helper storeHelper 3 1 ?_⟩
  have hd : xs_directory storeHelper ["local", "domain", "0", "backend", "vbd"]
      = some ["1", "2"] := by decide
  rw [hd]
  intro x hx
  simp only [Option.getD_some, List.mem_cons, List.mem_singleton, List.not_mem_nil,
    or_false] at hx
  rcases hx with rfl | rfl
  · exact Or.inl (by decide)
  · exact Or.inr (Or.inl ⟨"1", by decide, by decide⟩)



/-- C6, counterexample.  Guest 1 alone uses minor 3, nothing serves the image,
and the control service lists no instance with minor 3: the call returns true
without a close or an open, and the backend record is left ejected.  And with
the instance of minor 3 listed and the image path `"/a%%b.iso"`, the call
reopens the minor with locator `"aio:/a%%b.iso"`, returns true and leaves
`tapdisk-params = "aio:/a%b.iso"`: the locator went to the store writer as a
format. -/
theorem reuse_branch_skips_unlisted_minor :
    cdrom_vdev_of_domid storeAlone 1 = 5632 ∧
    cdrom_tap_minor_of_vdev storeAlone 1 5632 = some 3 ∧
    cdrom_tapdev_is_shared (cdrom_change 1 5632 "" "" none ""
      (worldOf storeAlone [] [] (0, none))).world.store 3 1 = some false ∧
    find_tap_with_path [] "/b.iso" < 0 ∧
    (blktap_change_iso "/b.iso" 1 (worldOf storeAlone [] [] (0, none))).value = some true ∧
    tapCalls (blktap_change_iso "/b.iso" 1 (worldOf storeAlone [] [] (0, none))).world.trace
      = [.tap_ctl_list, .tap_ctl_list] ∧
    xenstore_be_read (blktap_change_iso "/b.iso" 1
      (worldOf storeAlone [] [] (0, none))).world.store 1 5632 "params" = some "" ∧
    (blktap_change_iso "/a%%b.iso" 1
      (worldOf storeAlone [⟨20, 3, some "/a.iso"⟩] [] (0, none))).value = some true ∧
    tapCalls (blktap_change_iso "/a%%b.iso" 1
      (worldOf storeAlone [⟨20, 3, some "/a.iso"⟩] [] (0, none))).world.trace
      = [.tap_ctl_list, .tap_ctl_list, .tap_ctl_close 20 3 0,
          .tap_ctl_open_flags 20 3 "aio:/a%%b.iso" .TAPDISK_MESSAGE_FLAG_RDONLY] ∧
    xenstore_be_read (blktap_change_iso "/a%%b.iso" 1
      (worldOf storeAlone [⟨20, 3, some "/a.iso"⟩] [] (0, none))).world.store 1 5632
        "tapdisk-params" = some "aio:/a%b.iso" := by
  decide

/-- C7 (existing-instance search), the code at the failing input.  The second
listed instance serves the image; the first one is closed and has no path, and
the search stops there and returns `-1`. -/
theorem find_tap_with_path_stops_at_closed :
    find_tap_with_path [⟨20, 0, none⟩, ⟨21, 1, some "/isos/a.iso"⟩] "/isos/a.iso" = -1 := by
  decide

/-- C9, the code at the failing input.  Guest 1 alone uses minor 3, which
already serves the requested image.  The call returns true, destroys instance
`(20, 3)`, and afterwards commits the creation of the vbd with `params`
pointing at minor 3. -/
theorem blktap_change_iso_destroys_reused_instance :
    find_tap_with_path [⟨20, 3, some "/a.iso"⟩] "/a.iso" = 3 ∧
    (blktap_change_iso "/a.iso" 1
      (worldOf storeAlone [⟨20, 3, some "/a.iso"⟩] [peerCloses 1 5632] (0, none))).value
        = some true ∧
    tapCalls (blktap_change_iso "/a.iso" 1
      (worldOf storeAlone [⟨20, 3, some "/a.iso"⟩] [peerCloses 1 5632] (0, none))).world.trace
        = [.tap_ctl_list, .tap_ctl_list, .tap_ctl_destroy 20 3] ∧
    Event.txn (createBatch 1 5632 "aio:/a.iso" "phy" "fe:3" "/dev/xen/blktap-2/tapdev3")
        .committed ∈
      ((blktap_change_iso "/a.iso" 1
        (worldOf storeAlone [⟨20, 3, some "/a.iso"⟩] [peerCloses 1 5632] (0, none))).world.trace
          ).dropWhile (fun e => e != Event.tap_ctl_destroy 20 3) ∧
    xenstore_be_read (blktap_change_iso "/a.iso" 1
      (worldOf storeAlone [⟨20, 3, some "/a.iso"⟩] [peerCloses 1 5632] (0, none))).world.store
        1 5632 "params" = some "/dev/xen/blktap-2/tapdev3" := by
  decide

/-- C10, the code at the failing input.  Branch A (an instance with minor 10
serves the image) and Branch C (the create returns the device of minor 10) both
recreate the vbd of guest 1 on `/dev/xen/blktap-2/tapdev10`; Branch A writes the
physical-device token `fe:10`, Branch C writes `fe:a`. -/
theorem physical_device_differs_between_branches :
    xenstore_be_read (blktap_change_iso "/b.iso" 1
        (worldOf storeAlone [⟨20, 3, some "/a.iso"⟩, ⟨21, 10, some "/b.iso"⟩]
          [peerCloses 1 5632] (0, none))).world.store 1 5632 "params"
      = some "/dev/xen/blktap-2/tapdev10" ∧
    xenstore_be_read (blktap_change_iso "/b.iso" 1
        (worldOf storeAlone [⟨20, 3, some "/a.iso"⟩, ⟨21, 10, some "/b.iso"⟩]
          [peerCloses 1 5632] (0, none))).world.store 1 5632 "physical-device"
      = some "fe:10" ∧
    xenstore_be_read (blktap_change_iso "/b.iso" 1
        (worldOf storeShared [⟨20, 3, some "/a.iso"⟩]
          [peerCloses 1 5632] (0, some "/dev/xen/blktap-2/tapdev10"))).world.store 1 5632 "params"
      = some "/dev/xen/blktap-2/tapdev10" ∧
    xenstore_be_read (blktap_change_iso "/b.iso" 1
        (worldOf storeShared [⟨20, 3, some "/a.iso"⟩]
          [peerCloses 1 5632] (0, some "/dev/xen/blktap-2/tapdev10"))).world.store 1 5632
        "physical-device"
      = some "fe:a" := by
  decide



/-! ### The theorems with hypotheses, applied -/

/-- C6 amended, applied: guest 1 and its helper 2 on minor 3, nothing serves
the image. -/
theorem blktap_change_iso_reuse_witness :
    stubdom_of storeHelper 1 = 2 ∧
    ∃ w', blktap_change_iso "/b.iso" 1
      (worldOf storeHelper [⟨20, 3, some "/a.iso"⟩] [] (0, none)) = .ret true w' ∧
      tapCalls w'.trace = [.tap_ctl_list, .tap_ctl_list, .tap_ctl_close 20 3 0,
        .tap_ctl_open_flags 20 3 "aio:/b.iso" .TAPDISK_MESSAGE_FLAG_RDONLY] ∧
      xenstore_be_read w'.store 1 5632 "params" = some "/dev/xen/blktap-2/tapdev3" ∧
      xenstore_be_read w'.store 2 5632 "params" = some "/dev/xen/blktap-2/tapdev3" ∧
      xenstore_be_read w'.store 2 5632 "tapdisk-params" = some "aio:/b.iso" := by
  have hvd : cdrom_vdev_of_domid (worldOf storeHelper [⟨20, 3, some "/a.iso"⟩] []
      (0, none)).store 1 = 5632 := by decide
  have hst : stubdom_of (worldOf storeHelper [⟨20, 3, some "/a.iso"⟩] []
      (0, none)).store 1 = 2 := by decide
  obtain ⟨w', evs, hr, ht, hc, -, hf⟩ := blktap_change_iso_reuse "/b.iso" "aio:/b.iso" 1
    (worldOf storeHelper [⟨20, 3, some "/a.iso"⟩] [] (0, none)) 3 ⟨20, 3, some "/a.iso"⟩
    (by decide) (by decide) (by decide) (by decide) (by decide) (by decide) (by decide)
    (by decide) (by decide)
  have hf := hf (by decide)
  rw [hvd, hst] at hf
  refine ⟨by decide, w', hr, ?_, (hf 1 (Or.inl rfl)).1, (hf 2 (Or.inr ⟨rfl, by decide⟩)).1,
    (hf 2 (Or.inr ⟨rfl, by decide⟩)).2.2.1⟩
  rw [ht, tapCalls_append, hc]
  rfl

end CdromDaemon
